import Mathlib

/-!
# gossh: chained SSH connections, output streaming, proxying and SCP upload

A shallow embedding of `gossh.go`, `stream.go`, `scp.go` and `proxy.go`.

The secure-transport library, the file system and the network are external to
the repository.  They appear here as a `Provider`: a record of functions giving
the outcome of each external call.  Every function of the repository is a Lean
function of the provider which returns its Go result together with the list of
external actions it performed, in order (`Event`s).  The resources a run leaves
open are computed from that list (`openResources`).

Goroutines are recorded where they are started; the scanning loop each one
runs is `handleStream`, modelled on its own.

Go `string`s are Lean `String`s, one `Char` standing for one byte.
-/

namespace Gossh

/-! ## Errors -/

/-- Go `error` values: an error made by the environment or by `fmt.Errorf`
without `%w` is a `leaf`; `fmt.Errorf` with `%w` gives a `wrap` whose message is
the formatted text and whose `Unwrap` is the wrapped error. -/
inductive GoError where
  | leaf (msg : String)
  | wrap (msg : String) (inner : GoError)
deriving DecidableEq, Repr

/-- The method `Error()`. -/
def GoError.Error : GoError → String
  | .leaf msg => msg
  | .wrap msg _ => msg

/-- The method `Unwrap()`. -/
def GoError.Unwrap : GoError → Option GoError
  | .leaf _ => none
  | .wrap _ inner => some inner

/-- The call `fmt.Errorf(text + "%w", err)`: the message is `text` followed by
`err.Error()` and the result wraps `err`. -/
def Errorf (text : String) (err : GoError) : GoError :=
  .wrap (text ++ err.Error) err

deriving instance DecidableEq for Except

/-- Substring test on messages (`strings.Contains`). -/
def Contains (s sub : String) : Prop := sub.data <:+: s.data

instance (s sub : String) : Decidable (Contains s sub) := by
  unfold Contains; infer_instance

/-! ## Data model (`gossh.go`) -/

/-- The struct `HostConfig`. -/
structure HostConfig where
  Address : String
  User : String
  PrivateKey : String
  Password : String
deriving DecidableEq, Repr

/-- Values of `ssh.AuthMethod` built by `createClientConfig`. -/
inductive AuthMethod where
  | PublicKeys (signer : String)
  | Password (password : String)
deriving DecidableEq, Repr

/-- The struct `ssh.ClientConfig` as `createClientConfig` fills it; the host key
callback is always `ssh.InsecureIgnoreHostKey()` and is left out. -/
structure ClientConfig where
  User : String
  Auth : List AuthMethod
deriving DecidableEq, Repr

/-- The struct `Client`.  `Config` is the configuration of the target built by
`NewClient`; a client whose `Config` pointer is nil is not modelled. -/
structure Client where
  Config : ClientConfig
  JumpHosts : List HostConfig
  TargetHost : HostConfig
deriving DecidableEq, Repr

/-- A handle on an `*ssh.Client`. -/
structure Transport where
  id : Nat
deriving DecidableEq, Repr

/-- A handle on a `net.Conn`. -/
structure Conn where
  id : Nat
deriving DecidableEq, Repr

/-- A handle on an `*ssh.Session`. -/
structure Session where
  id : Nat
deriving DecidableEq, Repr

/-- The external calls the repository makes.  Each field gives the outcome of
one call as a function of its arguments. -/
structure Provider where
  /-- The call `ioutil.ReadFile(path)`. -/
  ReadFile : String → Except GoError String
  /-- The call `ssh.ParsePrivateKey(key)`. -/
  ParsePrivateKey : String → Except GoError String
  /-- The call `ssh.Dial(network, address, config)`. -/
  Dial : String → String → ClientConfig → Except GoError Transport
  /-- The call `current.Dial(network, address)` on an `*ssh.Client`. -/
  ClientDial : Transport → String → String → Except GoError Conn
  /-- The call `ssh.NewClientConn(conn, address, config)` followed by `ssh.NewClient`. -/
  NewClientConn : Conn → String → ClientConfig → Except GoError Transport
  /-- The call `sshClient.NewSession()`. -/
  NewSession : Transport → Except GoError Session
  /-- The call `session.StdinPipe()`. -/
  StdinPipe : Session → Except GoError Unit
  /-- The call `session.StdoutPipe()`. -/
  StdoutPipe : Session → Except GoError Unit
  /-- The call `session.StderrPipe()`. -/
  StderrPipe : Session → Except GoError Unit
  /-- The call `session.Start(command)`. -/
  Start : Session → String → Except GoError Unit
  /-- The call `fmt.Fprintf(stdinPipe, ...)` or `fmt.Fprint(stdinPipe, ...)` with the
  formatted text: the bytes that reach the pipe, and the error if any. -/
  Fprint : Session → String → String × Option GoError
  /-- The call `io.Copy(stdinPipe, reader)`: the bytes that reach the pipe, and the error if any. -/
  Copy : Session → String → String × Option GoError
  /-- The call `session.Wait()`. -/
  Wait : Session → Except GoError Unit

/-! ## Credentials (`gossh.go`) -/

/-- The function `createClientConfig`. -/
def createClientConfig (P : Provider) (user privateKeyPath password : String) :
    Except GoError ClientConfig :=
  let withPassword (authMethods : List AuthMethod) : Except GoError ClientConfig :=
    let authMethods :=
      if password ≠ "" then authMethods ++ [AuthMethod.Password password] else authMethods
    if authMethods.length = 0 then
      .error (.leaf "no authentication method provided")
    else
      .ok { User := user, Auth := authMethods }
  if privateKeyPath ≠ "" then
    match P.ReadFile privateKeyPath with
    | .error err => .error (Errorf "unable to read private key: " err)
    | .ok key =>
      match P.ParsePrivateKey key with
      | .error err => .error (Errorf "unable to parse private key: " err)
      | .ok signer => withPassword [AuthMethod.PublicKeys signer]
  else
    withPassword []

/-- The method `getClientConfig`. -/
def getClientConfig (P : Provider) (client : Client) (host : HostConfig) :
    Except GoError ClientConfig :=
  if host.User ≠ "" ∧ (host.PrivateKey ≠ "" ∨ host.Password ≠ "") then
    createClientConfig P host.User host.PrivateKey host.Password
  else
    .ok client.Config

/-! ## Observable actions -/

/-- Which host of the chain an action of `Connect` is for: the jump host at an
index of `JumpHosts`, or the target. -/
inductive Hop where
  | jump (index : Nat)
  | target
deriving DecidableEq, Repr

/-- Which output pipe of a session a reader is attached to. -/
inductive Pipe where
  | stdout
  | stderr
deriving DecidableEq, Repr

/-- Which handler a `handleStream` goroutine feeds. -/
inductive HandlerShape where
  | combined
  | separate
deriving DecidableEq, Repr

/-- A resource held open: a transport, a raw channel or a session. -/
inductive Handle where
  | transport (t : Transport)
  | conn (c : Conn)
  | session (s : Session)
deriving DecidableEq, Repr

/-- One external action. -/
inductive Action where
  | dial (hop : Hop) (network address : String) (config : ClientConfig)
  | openChannel (hop : Hop) (via : Transport) (network address : String)
  | handshake (hop : Hop) (conn : Conn) (address : String) (config : ClientConfig)
  | newSession (client : Transport)
  | stdinPipe (session : Session)
  | stdoutPipe (session : Session)
  | stderrPipe (session : Session)
  | start (session : Session) (command : String)
  | goHandleStream (session : Session) (pipe : Pipe) (shape : HandlerShape)
  | write (session : Session) (bytes : String)
  | closeStdin (session : Session)
  | wait (session : Session)
  | closeSession (session : Session)
  | closeClient (client : Transport)
  | closeListener (address : String)
deriving DecidableEq, Repr

/-- How an action ended: it failed with an error, it produced a handle, or it
succeeded without one. -/
inductive Outcome where
  | failed (err : GoError)
  | opened (h : Handle)
  | done
deriving DecidableEq, Repr

/-- An action together with its outcome. -/
structure Event where
  action : Action
  outcome : Outcome
deriving DecidableEq, Repr

/-- The host an action of `Connect` is for. -/
def Action.hop? : Action → Option Hop
  | .dial hop _ _ _ => some hop
  | .openChannel hop _ _ _ => some hop
  | .handshake hop _ _ _ => some hop
  | _ => none

/-- The address a network action of `Connect` goes to. -/
def Action.address? : Action → Option String
  | .dial _ _ address _ => some address
  | .openChannel _ _ _ address => some address
  | .handshake _ _ address _ => some address
  | _ => none

/-- The error an event failed with. -/
def Event.failure? (ev : Event) : Option GoError :=
  match ev.outcome with
  | .failed err => some err
  | _ => none

/-- An event is a network action: a dial, a channel-open, a handshake or a
session creation. -/
def Event.isNetwork (ev : Event) : Bool :=
  match ev.action with
  | .dial _ _ _ _ => true
  | .openChannel _ _ _ _ => true
  | .handshake _ _ _ _ => true
  | .newSession _ => true
  | _ => false

/-- An event starts a remote command. -/
def Event.isStart (ev : Event) : Bool :=
  match ev.action with
  | .start _ _ => true
  | _ => false

/-! ## `Connect` (`gossh.go`) -/

/-- Put the events `evs` that came first in front of those of the rest of a run. -/
def after {α : Type} (evs : List Event) (k : α × List Event) : α × List Event :=
  (k.1, evs ++ k.2)

/-- The body of the loop `for _, host := range client.JumpHosts` of `Connect`
for the host at index `i`, with `currentClient` as it stands: the error the
body returns with, or the new `currentClient`. -/
def hopStep (P : Provider) (client : Client) (i : Nat) (host : HostConfig)
    (currentClient : Option Transport) : Except GoError Transport × List Event :=
  match getClientConfig P client host with
  | .error err => (.error err, [])
  | .ok config =>
    let address := host.Address ++ ":22"
    match currentClient with
    | none =>
      match P.Dial "tcp" address config with
      | .error err =>
        (.error (Errorf ("failed to connect to " ++ address ++ ": ") err),
          [⟨.dial (.jump i) "tcp" address config, .failed err⟩])
      | .ok next =>
        (.ok next, [⟨.dial (.jump i) "tcp" address config, .opened (.transport next)⟩])
    | some current =>
      match P.ClientDial current "tcp" address with
      | .error err =>
        (.error (Errorf ("failed to dial from current host to " ++ address ++ ": ") err),
          [⟨.openChannel (.jump i) current "tcp" address, .failed err⟩])
      | .ok conn =>
        match P.NewClientConn conn address config with
        | .error err =>
          (.error (Errorf ("failed to create client connection to " ++ address ++ ": ") err),
            [⟨.openChannel (.jump i) current "tcp" address, .opened (.conn conn)⟩,
             ⟨.handshake (.jump i) conn address config, .failed err⟩])
        | .ok next =>
          (.ok next,
            [⟨.openChannel (.jump i) current "tcp" address, .opened (.conn conn)⟩,
             ⟨.handshake (.jump i) conn address config, .opened (.transport next)⟩])

/-- The loop `for _, host := range client.JumpHosts` of `Connect`, from the
host at index `i` on.  The result is the error the loop returns with, or
`currentClient` after the last host. -/
def connectLoop (P : Provider) (client : Client) :
    Nat → List HostConfig → Option Transport → Except GoError (Option Transport) × List Event
  | _, [], currentClient => (.ok currentClient, [])
  | i, host :: rest, currentClient =>
    match hopStep P client i host currentClient with
    | (.error err, evs) => (.error err, evs)
    | (.ok next, evs) => after evs (connectLoop P client (i + 1) rest (some next))

/-- The part of `Connect` after the loop: the connection to the target host. -/
def connectTarget (P : Provider) (client : Client) (currentClient : Option Transport) :
    Except GoError Transport × List Event :=
  match getClientConfig P client client.TargetHost with
  | .error err => (.error err, [])
  | .ok targetConfig =>
    let address := client.TargetHost.Address ++ ":22"
    match currentClient with
    | none =>
      match P.Dial "tcp" address targetConfig with
      | .error err =>
        (.error (Errorf "failed to dial to target host: " err),
          [⟨.dial .target "tcp" address targetConfig, .failed err⟩])
      | .ok targetClient =>
        (.ok targetClient,
          [⟨.dial .target "tcp" address targetConfig, .opened (.transport targetClient)⟩])
    | some current =>
      match P.ClientDial current "tcp" address with
      | .error err =>
        (.error (Errorf "failed to dial to target host: " err),
          [⟨.openChannel .target current "tcp" address, .failed err⟩])
      | .ok targetConn =>
        match P.NewClientConn targetConn address targetConfig with
        | .error err =>
          (.error (Errorf "failed to create client connection to target host: " err),
            [⟨.openChannel .target current "tcp" address, .opened (.conn targetConn)⟩,
             ⟨.handshake .target targetConn address targetConfig, .failed err⟩])
        | .ok targetClient =>
          (.ok targetClient,
            [⟨.openChannel .target current "tcp" address, .opened (.conn targetConn)⟩,
             ⟨.handshake .target targetConn address targetConfig,
               .opened (.transport targetClient)⟩])

/-- The method `Connect`: its result and the actions it performed, in order. -/
def Connect (P : Provider) (client : Client) : Except GoError Transport × List Event :=
  match connectLoop P client 0 client.JumpHosts none with
  | (.error err, evs) => (.error err, evs)
  | (.ok currentClient, evs) => after evs (connectTarget P client currentClient)

/-- The resources still open after a run: every handle an action produced,
less those released.  `Close` on a session or client releases it, and the
transport library closes the raw channel of a handshake that fails. -/
def openResources (trace : List Event) : List Handle :=
  trace.foldl
    (fun live ev =>
      match ev.action, ev.outcome with
      | _, .opened h => live ++ [h]
      | .handshake _ conn _ _, .failed _ => live.erase (.conn conn)
      | .closeSession s, _ => live.erase (.session s)
      | .closeClient t, _ => live.erase (.transport t)
      | _, _ => live)
    []

/-! ## Output streaming (`stream.go`) -/

/-- The constant `bufio.MaxScanTokenSize`, the buffer limit of a `bufio.Scanner`
made by `bufio.NewScanner`. -/
def MaxScanTokenSize : Nat := 64 * 1024

/-- The function `dropCR` of `bufio`: drop one trailing carriage return. -/
def dropCR (data : List Char) : List Char :=
  if data.getLast? = some (Char.ofNat 13) then data.dropLast else data

/-- One call of `scanner.Scan()` with the default split function `ScanLines`,
on the input not yet consumed: the token `scanner.Text()` and the input left,
or `none` when `Scan` returns false.  `Scan` returns false at the end of the
input, and when the buffer of `MaxScanTokenSize` bytes is full and holds no
newline. -/
def scan (rest : List Char) : Option (List Char × List Char) :=
  if rest = [] then none
  else
    let line := rest.takeWhile (fun c => c != Char.ofNat 10)
    if line.length < rest.length then
      if line.length < MaxScanTokenSize then
        some (dropCR line, rest.drop (line.length + 1))
      else none
    else if rest.length < MaxScanTokenSize then some (dropCR rest, [])
    else none

/-- The loop `for scanner.Scan() { handler(scanner.Text()) }`, at most `fuel`
iterations.  The handler is a Go closure: here it acts on a state `σ`. -/
def handleStreamLoop {σ : Type} (handler : String → σ → σ) : Nat → List Char → σ → σ
  | 0, _, s => s
  | fuel + 1, rest, s =>
    match scan rest with
    | none => s
    | some (token, rest2) => handleStreamLoop handler fuel rest2 (handler (String.mk token) s)

/-- The function `handleStream` on a reader that yields `reader` and then ends.
Each iteration consumes at least one byte, so `reader.length + 1` iterations
are enough. -/
def handleStream {σ : Type} (reader : String) (handler : String → σ → σ) (s : σ) : σ :=
  handleStreamLoop handler (reader.length + 1) reader.data s

/-- The handler that records its arguments. -/
def recordLine (line : String) (calls : List String) : List String := calls ++ [line]

/-- The function `streamCombinedOutput`, or `streamSeparateOutput` (the two
differ in the handler given to `handleStream` only).  The two readers run as
goroutines: they are recorded as started. -/
def streamOutput (P : Provider) (session : Session) (command : String) (shape : HandlerShape) :
    Option GoError × List Event :=
  match P.StdoutPipe session with
  | .error err =>
    (some (Errorf "unable to setup stdout for session: " err),
      [⟨.stdoutPipe session, .failed err⟩])
  | .ok _ =>
    after [⟨.stdoutPipe session, .done⟩] <|
    match P.StderrPipe session with
    | .error err =>
      (some (Errorf "unable to setup stderr for session: " err),
        [⟨.stderrPipe session, .failed err⟩])
    | .ok _ =>
      after [⟨.stderrPipe session, .done⟩] <|
      match P.Start session command with
      | .error err =>
        (some (Errorf "failed to start command: " err), [⟨.start session command, .failed err⟩])
      | .ok _ =>
        after [⟨.start session command, .done⟩,
               ⟨.goHandleStream session .stdout shape, .done⟩,
               ⟨.goHandleStream session .stderr shape, .done⟩] <|
        match P.Wait session with
        | .error err =>
          (some (Errorf "command finished with error: " err), [⟨.wait session, .failed err⟩])
        | .ok _ => (none, [⟨.wait session, .done⟩])

/-- The function `streamCombinedOutput`. -/
def streamCombinedOutput (P : Provider) (session : Session) (command : String) :
    Option GoError × List Event :=
  streamOutput P session command .combined

/-- The function `streamSeparateOutput`. -/
def streamSeparateOutput (P : Provider) (session : Session) (command : String) :
    Option GoError × List Event :=
  streamOutput P session command .separate

/-- The method `StreamCommand`.  A handler is `none` when the Go argument is
`nil`.  The result is the returned `error` (`none` for `nil`). -/
def StreamCommand {H₁ H₂ : Type} (P : Provider) (client : Client) (command : String)
    (combinedHandler : Option H₁) (separateHandler : Option H₂) : Option GoError × List Event :=
  match Connect P client with
  | (.error err, evs) => (some err, evs)
  | (.ok sshClient, evs) =>
    after evs <|
    match P.NewSession sshClient with
    | .error err =>
      (some (Errorf "failed to create session on target host: " err),
        [⟨.newSession sshClient, .failed err⟩, ⟨.closeClient sshClient, .done⟩])
    | .ok session =>
      let body : Option GoError × List Event :=
        if separateHandler.isSome then
          streamSeparateOutput P session command
        else if combinedHandler.isSome then
          streamCombinedOutput P session command
        else
          (some (.leaf "no valid handler provided"), [])
      (body.1,
        [⟨.newSession sshClient, .opened (.session session)⟩] ++ body.2 ++
        [⟨.closeSession session, .done⟩, ⟨.closeClient sshClient, .done⟩])

/-! ## SCP upload (`scp.go`) -/

/-- The function `path.Base` of the Go library: the last element of a
slash-separated path, trailing slashes removed; `.` for the empty path and `/`
for a path of slashes only. -/
def Base (path : String) : String :=
  if path = "" then "."
  else
    let stripped := path.data.rdropWhile (fun c => c == Char.ofNat 47)
    let last := stripped.rtakeWhile (fun c => c != Char.ofNat 47)
    if last = [] then "/" else String.mk last

/-- The bytes written to the standard input of the remote session during a run. -/
def stdinBytes : List Event → String
  | [] => ""
  | ⟨.write _ bytes, _⟩ :: evs => bytes ++ stdinBytes evs
  | _ :: evs => stdinBytes evs

/-- The event of a write on the standard input of a session, from what the
provider says reached the pipe. -/
def written (session : Session) (r : String × Option GoError) : Event :=
  match r with
  | (bytes, some err) => ⟨.write session bytes, .failed err⟩
  | (bytes, none) => ⟨.write session bytes, .done⟩

/-- The method `SCPUpload`.  `reader` is the content the reader yields and
`size` the Go `int64` argument.  `fmt.Fprintf` and `fmt.Fprint` on the pipe
have their results ignored by the code. -/
def SCPUpload (P : Provider) (client : Client) (reader : String) (size : Int)
    (remoteFilePath : String) : Option GoError × List Event :=
  match Connect P client with
  | (.error err, evs) => (some err, evs)
  | (.ok sshClient, evs) =>
    after evs <|
    match P.NewSession sshClient with
    | .error err =>
      (some (Errorf "failed to create session on target host: " err),
        [⟨.newSession sshClient, .failed err⟩, ⟨.closeClient sshClient, .done⟩])
    | .ok session =>
      let scpCmd := "scp -t " ++ remoteFilePath
      let body : Option GoError × List Event :=
        match P.StdinPipe session with
        | .error err =>
          (some (Errorf "failed to open stdin pipe: " err), [⟨.stdinPipe session, .failed err⟩])
        | .ok _ =>
          let piped : Option GoError × List Event :=
            match P.Start session scpCmd with
            | .error err =>
              (some (Errorf "failed to start SCP command on remote host: " err),
                [⟨.start session scpCmd, .failed err⟩])
            | .ok _ =>
              after [⟨.start session scpCmd, .done⟩,
                     written session (P.Fprint session
                       ("C0644 " ++ toString size ++ " " ++ Base remoteFilePath ++ "\n"))] <|
              match P.Copy session reader with
              | (copied, some err) =>
                (some (Errorf "failed to copy data to remote host: " err),
                  [⟨.write session copied, .failed err⟩])
              | (copied, none) =>
                after [⟨.write session copied, .done⟩,
                       written session (P.Fprint session (String.mk [Char.ofNat 0])),
                       ⟨.closeStdin session, .done⟩] <|
                match P.Wait session with
                | .error err =>
                  (some (Errorf "SCP command finished with error: " err),
                    [⟨.wait session, .failed err⟩])
                | .ok _ => (none, [⟨.wait session, .done⟩])
          (piped.1, [⟨.stdinPipe session, .done⟩] ++ piped.2 ++ [⟨.closeStdin session, .done⟩])
      (body.1,
        [⟨.newSession sshClient, .opened (.session session)⟩] ++ body.2 ++
        [⟨.closeSession session, .done⟩, ⟨.closeClient sshClient, .done⟩])

/-! ## Port forwarding (`proxy.go`) -/

/-- The local side of a proxy: the outcome of `net.Listen`, of each call of
`localListener.Accept()` (numbered from 0) and of the remote dial made for each
accepted connection (same numbering). -/
structure ProxyEnv where
  /-- The call `net.Listen(network, address)`. -/
  Listen : String → String → Except GoError Unit
  /-- The call `localListener.Accept()`, by its number. -/
  Accept : Nat → Except GoError Conn
  /-- The call `sshClient.Dial(network, address)` for the accepted connection of that number. -/
  RemoteDial : Nat → Transport → String → String → Except GoError Conn

/-- What became of one accepted connection: the goroutine that handles it
either logs a failed remote dial and ends, or relays between the two
connections. -/
inductive Handled where
  | dialFailed (index : Nat) (localConn : Conn) (logged : String)
  | relayed (index : Nat) (localConn remoteConn : Conn)
deriving DecidableEq, Repr

/-- The body of the goroutine started for an accepted connection. -/
def handleConnection (E : ProxyEnv) (sshClient : Transport) (network address logText : String)
    (n : Nat) (localConn : Conn) : Handled :=
  match E.RemoteDial n sshClient network address with
  | .error err => .dialFailed n localConn (logText ++ err.Error)
  | .ok remoteConn => .relayed n localConn remoteConn

/-- The loop `for { localConn, err := localListener.Accept() ... }`, from the
call of `Accept` number `n` on, at most `fuel` iterations.  The result is
`some err` when the loop returns `err`, and `none` when it is still running
after `fuel` iterations; with it comes the record of each connection handled. -/
def acceptLoop (E : ProxyEnv) (sshClient : Transport) (network address logText : String) :
    Nat → Nat → Option GoError × List Handled
  | 0, _ => (none, [])
  | fuel + 1, n =>
    match E.Accept n with
    | .error err => (some (Errorf "failed to accept local connection: " err), [])
    | .ok localConn =>
      let (r, handled) := acceptLoop E sshClient network address logText fuel (n + 1)
      (r, handleConnection E sshClient network address logText n localConn :: handled)

/-- The common shape of the two proxy methods: connect, listen, accept loop. -/
def proxy (P : Provider) (E : ProxyEnv) (client : Client) (localPort network address
    logText : String) (fuel : Nat) : Option GoError × List Event × List Handled :=
  match Connect P client with
  | (.error err, evs) => (some err, evs, [])
  | (.ok sshClient, evs) =>
    match E.Listen "tcp" ("localhost:" ++ localPort) with
    | .error err =>
      (some (Errorf "failed to set up local listener: " err),
        evs ++ [⟨.closeClient sshClient, .done⟩], [])
    | .ok _ =>
      match acceptLoop E sshClient network address logText fuel 0 with
      | (none, handled) => (none, evs, handled)
      | (some err, handled) =>
        (some err,
          evs ++ [⟨.closeListener ("localhost:" ++ localPort), .done⟩,
            ⟨.closeClient sshClient, .done⟩],
          handled)

/-- The method `ProxyRemotePortToLocal`, its accept loop run for at most
`fuel` iterations. -/
def ProxyRemotePortToLocal (P : Provider) (E : ProxyEnv) (client : Client)
    (localPort remoteHost remotePort : String) (fuel : Nat) :
    Option GoError × List Event × List Handled :=
  proxy P E client localPort "tcp" (remoteHost ++ ":" ++ remotePort)
    "failed to connect to remote host: " fuel

/-- The method `ProxyRemoteUnixSocketToLocal`, its accept loop run for at most
`fuel` iterations. -/
def ProxyRemoteUnixSocketToLocal (P : Provider) (E : ProxyEnv) (client : Client)
    (localPort remoteSocketPath : String) (fuel : Nat) :
    Option GoError × List Event × List Handled :=
  proxy P E client localPort "unix" remoteSocketPath
    "failed to connect to remote Unix socket: " fuel

/-! ## Specification-side definitions -/

/-- The three kinds of network step of `Connect`. -/
inductive StepKind where
  | dial
  | openChannel
  | handshake
deriving DecidableEq, Repr

/-- The kind, host and address of a network action of `Connect`. -/
def Action.step? : Action → Option (StepKind × Hop × String)
  | .dial hop _ address _ => some (.dial, hop, address)
  | .openChannel hop _ _ address => some (.openChannel, hop, address)
  | .handshake hop _ address _ => some (.handshake, hop, address)
  | _ => none

/-- Every network step succeeds, whatever it is called on: each dial,
channel-open and handshake of the provider returns a handle. -/
def NetworkSucceeds (P : Provider) : Prop :=
  (∀ network address config, ∃ t, P.Dial network address config = .ok t) ∧
  (∀ via network address, ∃ conn, P.ClientDial via network address = .ok conn) ∧
  (∀ conn address config, ∃ t, P.NewClientConn conn address config = .ok t)

/-- Every host of the chain resolves to a configuration: no key file of a host
with credentials of its own fails to load. -/
def CredentialsResolve (P : Provider) (client : Client) : Prop :=
  ∀ host ∈ client.JumpHosts ++ [client.TargetHost], ∃ config,
    getClientConfig P client host = .ok config

/-- Specification: the two steps that reach a host through the current
transport, a channel-open to its address and a handshake. -/
def tunnel (hop : Hop) (host : HostConfig) : List (Option (StepKind × Hop × String)) :=
  [some (.openChannel, hop, host.Address ++ ":22"), some (.handshake, hop, host.Address ++ ":22")]

/-- Specification: the network steps of a successful `Connect`, as the chain
builder is described.  Without jump hosts, one direct dial of the target.
Otherwise a direct dial of the first jump host, then a tunnel to each further
jump host in list order, then a tunnel to the target. -/
def chainActions (client : Client) : List (Option (StepKind × Hop × String)) :=
  match client.JumpHosts with
  | [] => [some (.dial, .target, client.TargetHost.Address ++ ":22")]
  | first :: others =>
    some (.dial, .jump 0, first.Address ++ ":22") ::
      ((others.enumFrom 1).flatMap fun ih => tunnel (.jump ih.1) ih.2) ++
      tunnel .target client.TargetHost

/-- Every step on a session succeeds and every write passes all its bytes. -/
def SessionSucceeds (P : Provider) : Prop :=
  (∀ client, ∃ session, P.NewSession client = .ok session) ∧
  (∀ session, P.StdinPipe session = .ok ()) ∧
  (∀ session command, P.Start session command = .ok ()) ∧
  (∀ session text, P.Fprint session text = (text, none)) ∧
  (∀ session reader, P.Copy session reader = (reader, none)) ∧
  (∀ session, P.Wait session = .ok ())

/-- The handle an event produced. -/
def Event.produced? (ev : Event) : Option Handle :=
  match ev.outcome with
  | .opened h => some h
  | _ => none

/-- Specification: the steps of a trace are chained.  A direct dial comes first,
a channel-open goes through the transport the step before it produced, and a
handshake runs over the channel the step before it opened.  `prev` is what the
step before produced. -/
def Chained : Option Handle → List Event → Prop
  | _, [] => True
  | prev, ev :: evs =>
    (match ev.action with
      | .dial _ _ _ _ => prev = none
      | .openChannel _ via _ _ => prev = some (.transport via)
      | .handshake _ conn _ _ => prev = some (.conn conn)
      | _ => False) ∧ Chained ev.produced? evs

/-- Specification: the lines of a stream as `bufio.ScanLines` cuts them.  The
content is split on the newline byte; a last piece that is empty (the content
is empty or ends in a newline) is no line; one trailing carriage return of a
line is dropped. -/
def scanLines (content : List Char) : List (List Char) :=
  let pieces := content.splitOn (Char.ofNat 10)
  let pieces := if pieces.getLast? = some [] then pieces.dropLast else pieces
  pieces.map dropCR

/-! ## Concrete environments -/

/-- A provider on which every call succeeds.  The first transport has number
0, and each channel and transport made from one has the next number. -/
def okProvider : Provider where
  ReadFile := fun path => .ok ("key@" ++ path)
  ParsePrivateKey := fun key => .ok ("signer:" ++ key)
  Dial := fun _ _ _ => .ok ⟨0⟩
  ClientDial := fun via _ _ => .ok ⟨via.id + 1⟩
  NewClientConn := fun conn _ _ => .ok ⟨conn.id⟩
  NewSession := fun client => .ok ⟨client.id⟩
  StdinPipe := fun _ => .ok ()
  StdoutPipe := fun _ => .ok ()
  StderrPipe := fun _ => .ok ()
  Start := fun _ _ => .ok ()
  Fprint := fun _ text => (text, none)
  Copy := fun _ reader => (reader, none)
  Wait := fun _ => .ok ()

/-- As `okProvider`, but no key file can be read. -/
def noKeyProvider : Provider :=
  { okProvider with ReadFile := fun _ => .error (.leaf "no such file") }

/-- As `okProvider`, but every direct dial is refused. -/
def refusedProvider : Provider :=
  { okProvider with Dial := fun _ _ _ => .error (.leaf "refused") }

/-- As `okProvider`, but no channel can be opened through a transport. -/
def noChannelProvider : Provider :=
  { okProvider with ClientDial := fun _ _ _ => .error (.leaf "unreachable") }

/-- A client for `alice` with a password on the target `10.0.0.5`, through the
given jump hosts. -/
def aliceClient (jumpHosts : List HostConfig) : Client where
  Config := { User := "alice", Auth := [.Password "p"] }
  JumpHosts := jumpHosts
  TargetHost := { Address := "10.0.0.5", User := "alice", PrivateKey := "", Password := "p" }

/-- A jump host `10.0.0.1` for `bob` with a private key. -/
def bobHost : HostConfig :=
  { Address := "10.0.0.1", User := "bob", PrivateKey := "~/.ssh/id", Password := "" }

/-- A jump host `10.0.0.2` without credentials of its own. -/
def plainHost : HostConfig :=
  { Address := "10.0.0.2", User := "", PrivateKey := "", Password := "" }

/-- A local side on which the first two calls of `Accept` succeed and the third
fails, and the remote dial for the first connection fails. -/
def twoThenClosed : ProxyEnv where
  Listen := fun _ _ => .ok ()
  Accept := fun n => if n < 2 then .ok ⟨n⟩ else .error (.leaf "listener closed")
  RemoteDial := fun n _ _ _ => if n = 0 then .error (.leaf "refused") else .ok ⟨100 + n⟩

/-! # Theorems -/

/-! ## Credentials -/

theorem createClientConfig_ok (P : Provider) (user key password : String) (cfg : ClientConfig)
    (h : createClientConfig P user key password = .ok cfg) :
    cfg.User = user ∧
    ∀ m ∈ cfg.Auth, (password ≠ "" ∧ m = .Password password) ∨
      (key ≠ "" ∧ ∃ bytes signer, P.ReadFile key = .ok bytes ∧
        P.ParsePrivateKey bytes = .ok signer ∧ m = .PublicKeys signer) := by
  unfold createClientConfig at h
  by_cases hk : key = "" <;> by_cases hp : password = ""
  · simp [hk, hp] at h
  · simp only [hk, hp, ne_eq, not_true_eq_false, not_false_eq_true, if_true, if_false,
      List.nil_append, List.length_singleton, one_ne_zero, Except.ok.injEq] at h
    subst h
    exact ⟨rfl, fun m hm => Or.inl ⟨hp, by simpa using hm⟩⟩
  · simp only [hk, hp, ne_eq, not_true_eq_false, not_false_eq_true, if_true, if_false] at h
    cases hb : P.ReadFile key with
    | error e => simp [hb] at h
    | ok bytes =>
      cases hs : P.ParsePrivateKey bytes with
      | error e => simp [hb, hs] at h
      | ok signer =>
        simp only [hb, hs, List.length_singleton, one_ne_zero, if_false, Except.ok.injEq] at h
        subst h
        exact ⟨rfl, fun m hm => Or.inr ⟨hk, bytes, signer, rfl, hs, by simpa using hm⟩⟩
  · simp only [hk, hp, ne_eq, not_true_eq_false, not_false_eq_true, if_true, if_false] at h
    cases hb : P.ReadFile key with
    | error e => simp [hb] at h
    | ok bytes =>
      cases hs : P.ParsePrivateKey bytes with
      | error e => simp [hb, hs] at h
      | ok signer =>
        simp only [hb, hs, List.singleton_append, List.length_cons, List.length_singleton,
          Nat.add_one_ne_zero, if_false, Except.ok.injEq] at h
        subst h
        refine ⟨rfl, fun m hm => ?_⟩
        simp only [List.mem_cons, List.mem_singleton, List.not_mem_nil, or_false] at hm
        rcases hm with hm | hm
        · exact Or.inr ⟨hk, bytes, signer, rfl, hs, hm⟩
        · exact Or.inl ⟨hp, hm⟩

/-- C3: `getClientConfig` is all or nothing.  For a host with a user and at
least one of private key and password, the configuration is built by
`createClientConfig` from the host's own three fields, whatever the client: its
user is the host's and each of its methods comes from the host's key or
password.  For every other host the result is the client's default
configuration, unchanged, whatever the host's fields. -/
theorem getClientConfig_all_or_nothing (P : Provider) (c : Client) (h : HostConfig) :
    (h.User ≠ "" ∧ (h.PrivateKey ≠ "" ∨ h.Password ≠ "") →
      getClientConfig P c h = createClientConfig P h.User h.PrivateKey h.Password ∧
      (∀ c2 : Client, getClientConfig P c2 h = getClientConfig P c h) ∧
      ∀ cfg, getClientConfig P c h = .ok cfg →
        cfg.User = h.User ∧
        ∀ m ∈ cfg.Auth, (h.Password ≠ "" ∧ m = .Password h.Password) ∨
          (h.PrivateKey ≠ "" ∧ ∃ bytes signer, P.ReadFile h.PrivateKey = .ok bytes ∧
            P.ParsePrivateKey bytes = .ok signer ∧ m = .PublicKeys signer)) ∧
    (¬ (h.User ≠ "" ∧ (h.PrivateKey ≠ "" ∨ h.Password ≠ "")) →
      getClientConfig P c h = .ok c.Config) := by
  constructor
  · intro hc
    have e : ∀ c2 : Client,
        getClientConfig P c2 h = createClientConfig P h.User h.PrivateKey h.Password := by
      intro c2
      unfold getClientConfig
      rw [if_pos hc]
    refine ⟨e c, fun c2 => (e c2).trans (e c).symm, ?_⟩
    intro cfg hcfg
    rw [e c] at hcfg
    exact createClientConfig_ok P _ _ _ cfg hcfg
  · intro hc
    unfold getClientConfig
    rw [if_neg hc]

/-- Witness for C3: `bobHost` has credentials of its own and gets its own
configuration; `plainHost` has none and gets the default of the client. -/
theorem getClientConfig_all_or_nothing_witness :
    getClientConfig okProvider (aliceClient []) bobHost =
      .ok { User := "bob", Auth := [.PublicKeys "signer:key@~/.ssh/id"] } ∧
    getClientConfig okProvider (aliceClient []) plainHost =
      .ok { User := "alice", Auth := [.Password "p"] } :=
  ⟨((getClientConfig_all_or_nothing okProvider (aliceClient []) bobHost).1
      (by decide)).1.trans (by decide),
   (getClientConfig_all_or_nothing okProvider (aliceClient []) plainHost).2 (by decide)⟩


/-! ## `Connect` -/

theorem contains_address (text address rest : String) :
    Contains (text ++ address ++ ": " ++ rest) address := by
  unfold Contains
  simp only [String.data_append, List.append_assoc]
  exact List.infix_append' _ _ _

theorem hopStep_cases (P : Provider) (c : Client) (i : Nat) (host : HostConfig)
    (cur : Option Transport) :
    (∃ err, hopStep P c i host cur = (.error err, [])) ∨
    (∃ cfg err, hopStep P c i host cur =
      (.error (Errorf ("failed to connect to " ++ (host.Address ++ ":22") ++ ": ") err),
        [⟨.dial (.jump i) "tcp" (host.Address ++ ":22") cfg, .failed err⟩])) ∨
    (∃ cfg next, cur = none ∧ hopStep P c i host cur =
      (.ok next, [⟨.dial (.jump i) "tcp" (host.Address ++ ":22") cfg,
        .opened (.transport next)⟩])) ∨
    (∃ current err, hopStep P c i host cur =
      (.error (Errorf ("failed to dial from current host to " ++ (host.Address ++ ":22") ++ ": ")
          err),
        [⟨.openChannel (.jump i) current "tcp" (host.Address ++ ":22"), .failed err⟩])) ∨
    (∃ current cfg conn err, hopStep P c i host cur =
      (.error (Errorf ("failed to create client connection to " ++ (host.Address ++ ":22") ++
          ": ") err),
        [⟨.openChannel (.jump i) current "tcp" (host.Address ++ ":22"), .opened (.conn conn)⟩,
         ⟨.handshake (.jump i) conn (host.Address ++ ":22") cfg, .failed err⟩])) ∨
    (∃ current cfg conn next, cur = some current ∧ hopStep P c i host cur =
      (.ok next,
        [⟨.openChannel (.jump i) current "tcp" (host.Address ++ ":22"), .opened (.conn conn)⟩,
         ⟨.handshake (.jump i) conn (host.Address ++ ":22") cfg,
           .opened (.transport next)⟩])) := by
  unfold hopStep
  cases getClientConfig P c host with
  | error err => exact Or.inl ⟨err, rfl⟩
  | ok cfg =>
    cases cur with
    | none =>
      cases hd : P.Dial "tcp" (host.Address ++ ":22") cfg with
      | error err => exact Or.inr (Or.inl ⟨cfg, err, by simp only [hd]⟩)
      | ok next => exact Or.inr (Or.inr (Or.inl ⟨cfg, next, rfl, by simp only [hd]⟩))
    | some current =>
      cases hd : P.ClientDial current "tcp" (host.Address ++ ":22") with
      | error err => exact Or.inr (Or.inr (Or.inr (Or.inl ⟨current, err, by simp only [hd]⟩)))
      | ok conn =>
        cases hn : P.NewClientConn conn (host.Address ++ ":22") cfg with
        | error err =>
          exact Or.inr (Or.inr (Or.inr (Or.inr (Or.inl
            ⟨current, cfg, conn, err, by simp only [hd, hn]⟩))))
        | ok next =>
          exact Or.inr (Or.inr (Or.inr (Or.inr (Or.inr
            ⟨current, cfg, conn, next, rfl, by simp only [hd, hn]⟩))))

/-- Every action of a loop body is for the host of that iteration and goes to
its address. -/
theorem hopStep_events (P : Provider) (c : Client) (i : Nat) (host : HostConfig)
    (cur : Option Transport) (ev : Event) (h : ev ∈ (hopStep P c i host cur).2) :
    ev.action.hop? = some (.jump i) ∧ ev.action.address? = some (host.Address ++ ":22") := by
  rcases hopStep_cases P c i host cur with ⟨_, e⟩ | ⟨_, _, e⟩ | ⟨_, _, _, e⟩ | ⟨_, _, e⟩ |
    ⟨_, _, _, _, e⟩ | ⟨_, _, _, _, _, e⟩ <;> rw [e] at h <;>
    simp only [List.mem_cons, List.mem_singleton, List.not_mem_nil, or_false] at h
  · rw [h]; exact ⟨rfl, rfl⟩
  · rw [h]; exact ⟨rfl, rfl⟩
  · rw [h]; exact ⟨rfl, rfl⟩
  · rcases h with h | h <;> rw [h] <;> exact ⟨rfl, rfl⟩
  · rcases h with h | h <;> rw [h] <;> exact ⟨rfl, rfl⟩

/-- A loop body that yields a transport had no failed action. -/
theorem hopStep_ok (P : Provider) (c : Client) (i : Nat) (host : HostConfig)
    (cur : Option Transport) (next : Transport) (hr : (hopStep P c i host cur).1 = .ok next)
    (ev : Event) (h : ev ∈ (hopStep P c i host cur).2) : ev.failure? = none := by
  rcases hopStep_cases P c i host cur with ⟨_, e⟩ | ⟨_, _, e⟩ | ⟨_, _, _, e⟩ | ⟨_, _, e⟩ |
    ⟨_, _, _, _, e⟩ | ⟨_, _, _, _, _, e⟩ <;> rw [e] at h hr <;>
    simp only [List.mem_cons, List.mem_singleton, List.not_mem_nil, or_false, reduceCtorEq] at h hr
  · rw [h]; rfl
  · rcases h with h | h <;> rw [h] <;> rfl

/-- A failed action of a loop body is its last action, and the body returns an
error that wraps the cause and names the address. -/
theorem hopStep_failure (P : Provider) (c : Client) (i : Nat) (host : HostConfig)
    (cur : Option Transport) (ev : Event) (h : ev ∈ (hopStep P c i host cur).2)
    (cause : GoError) (hf : ev.failure? = some cause) :
    ∃ err, (hopStep P c i host cur).1 = .error err ∧ err.Unwrap = some cause ∧
      Contains err.Error (host.Address ++ ":22") ∧
      (hopStep P c i host cur).2.getLast? = some ev := by
  rcases hopStep_cases P c i host cur with ⟨_, e⟩ | ⟨_, _, e⟩ | ⟨_, _, _, e⟩ | ⟨_, _, e⟩ |
    ⟨_, _, _, _, e⟩ | ⟨_, _, _, _, _, e⟩ <;> rw [e] at h ⊢ <;>
    simp only [List.mem_cons, List.mem_singleton, List.not_mem_nil, or_false] at h
  · subst h
    simp only [Event.failure?, Option.some.injEq] at hf
    subst hf
    exact ⟨_, rfl, rfl, contains_address _ _ _, rfl⟩
  · subst h; simp [Event.failure?] at hf
  · subst h
    simp only [Event.failure?, Option.some.injEq] at hf
    subst hf
    exact ⟨_, rfl, rfl, contains_address _ _ _, rfl⟩
  · rcases h with h | h
    · subst h; simp [Event.failure?] at hf
    · subst h
      simp only [Event.failure?, Option.some.injEq] at hf
      subst hf
      exact ⟨_, rfl, rfl, contains_address _ _ _, rfl⟩
  · rcases h with h | h <;> subst h <;> simp [Event.failure?] at hf

theorem connectLoop_cons_error (P : Provider) (c : Client) (i : Nat) (host : HostConfig)
    (rest : List HostConfig) (cur : Option Transport) (err : GoError)
    (h : (hopStep P c i host cur).1 = .error err) :
    connectLoop P c i (host :: rest) cur = (.error err, (hopStep P c i host cur).2) := by
  rw [connectLoop]
  rcases hs : hopStep P c i host cur with ⟨r, evs⟩
  rw [hs] at h
  simp only at h
  subst h
  rfl

theorem connectLoop_cons_ok (P : Provider) (c : Client) (i : Nat) (host : HostConfig)
    (rest : List HostConfig) (cur : Option Transport) (next : Transport)
    (h : (hopStep P c i host cur).1 = .ok next) :
    connectLoop P c i (host :: rest) cur =
      ((connectLoop P c (i + 1) rest (some next)).1,
        (hopStep P c i host cur).2 ++ (connectLoop P c (i + 1) rest (some next)).2) := by
  rw [connectLoop]
  rcases hs : hopStep P c i host cur with ⟨r, evs⟩
  rw [hs] at h
  simp only at h
  subst h
  rfl

/-- Every action of the loop is for a jump host of the list, at its index, and
goes to its address. -/
theorem connectLoop_events (P : Provider) (c : Client) (hosts : List HostConfig) :
    ∀ (i : Nat) (cur : Option Transport) (ev : Event),
      ev ∈ (connectLoop P c i hosts cur).2 →
      ∃ j host, i ≤ j ∧ hosts[j - i]? = some host ∧ ev.action.hop? = some (.jump j) ∧
        ev.action.address? = some (host.Address ++ ":22") := by
  induction hosts with
  | nil => intro i cur ev h; simp [connectLoop] at h
  | cons host rest ih =>
    intro i cur ev h
    have head : ev ∈ (hopStep P c i host cur).2 →
        ∃ j host2, i ≤ j ∧ (host :: rest)[j - i]? = some host2 ∧
          ev.action.hop? = some (.jump j) ∧
          ev.action.address? = some (host2.Address ++ ":22") := by
      intro hm
      obtain ⟨h1, h2⟩ := hopStep_events P c i host cur ev hm
      exact ⟨i, host, le_refl i, by simp, h1, h2⟩
    cases hr : (hopStep P c i host cur).1 with
    | error err =>
      rw [connectLoop_cons_error P c i host rest cur err hr] at h
      exact head h
    | ok next =>
      rw [connectLoop_cons_ok P c i host rest cur next hr] at h
      simp only [List.mem_append] at h
      rcases h with h | h
      · exact head h
      · obtain ⟨j, host2, hij, hget, h1, h2⟩ := ih (i + 1) (some next) ev h
        refine ⟨j, host2, by omega, ?_, h1, h2⟩
        have : j - i = (j - (i + 1)) + 1 := by omega
        rw [this, List.getElem?_cons_succ]
        exact hget

/-- A loop that runs to its end had no failed action. -/
theorem connectLoop_ok (P : Provider) (c : Client) (hosts : List HostConfig) :
    ∀ (i : Nat) (cur last : Option Transport),
      (connectLoop P c i hosts cur).1 = .ok last →
      ∀ ev ∈ (connectLoop P c i hosts cur).2, ev.failure? = none := by
  induction hosts with
  | nil => intro i cur last _ ev h; simp [connectLoop] at h
  | cons host rest ih =>
    intro i cur last hl ev h
    cases hr : (hopStep P c i host cur).1 with
    | error err =>
      rw [connectLoop_cons_error P c i host rest cur err hr] at hl
      simp at hl
    | ok next =>
      rw [connectLoop_cons_ok P c i host rest cur next hr] at h hl
      simp only [List.mem_append] at h
      rcases h with h | h
      · exact hopStep_ok P c i host cur next hr ev h
      · exact ih (i + 1) (some next) last hl ev h

/-- A failed action of the loop is its last action; the loop returns an error
that wraps the cause and names the address of the action; and no action of the
loop is for a later jump host. -/
theorem connectLoop_failure (P : Provider) (c : Client) (hosts : List HostConfig) :
    ∀ (i : Nat) (cur : Option Transport) (ev : Event),
      ev ∈ (connectLoop P c i hosts cur).2 →
      ∀ (cause : GoError) (k : Nat) (address : String), ev.failure? = some cause →
      ev.action.hop? = some (.jump k) → ev.action.address? = some address →
      ∃ err, (connectLoop P c i hosts cur).1 = .error err ∧ err.Unwrap = some cause ∧
        Contains err.Error address ∧
        (connectLoop P c i hosts cur).2.getLast? = some ev ∧
        ∀ ev2 ∈ (connectLoop P c i hosts cur).2, ∃ j, j ≤ k ∧
          ev2.action.hop? = some (.jump j) := by
  induction hosts with
  | nil => intro i cur ev h; simp [connectLoop] at h
  | cons host rest ih =>
    intro i cur ev h cause k address hf hk ha
    have head : ev ∈ (hopStep P c i host cur).2 →
        ∃ err, (hopStep P c i host cur).1 = .error err ∧ err.Unwrap = some cause ∧
          Contains err.Error address ∧ (hopStep P c i host cur).2.getLast? = some ev ∧
          ∀ ev2 ∈ (hopStep P c i host cur).2, ∃ j, j ≤ k ∧
            ev2.action.hop? = some (.jump j) := by
      intro hm
      obtain ⟨err, h1, h2, h3, h4⟩ := hopStep_failure P c i host cur ev hm cause hf
      obtain ⟨e1, e2⟩ := hopStep_events P c i host cur ev hm
      rw [e1] at hk
      rw [e2] at ha
      simp only [Option.some.injEq, Hop.jump.injEq] at hk ha
      subst hk ha
      exact ⟨err, h1, h2, h3, h4, fun ev2 hm2 =>
        ⟨i, le_refl i, (hopStep_events P c i host cur ev2 hm2).1⟩⟩
    cases hr : (hopStep P c i host cur).1 with
    | error err =>
      rw [connectLoop_cons_error P c i host rest cur err hr] at h ⊢
      obtain ⟨err2, h1, h2, h3, h4, h5⟩ := head h
      rw [hr] at h1
      exact ⟨err2, (by simpa using h1), h2, h3, h4, h5⟩
    | ok next =>
      rw [connectLoop_cons_ok P c i host rest cur next hr] at h ⊢
      simp only [List.mem_append] at h
      rcases h with h | h
      · have := hopStep_ok P c i host cur next hr ev h
        rw [this] at hf
        simp at hf
      · obtain ⟨err, h1, h2, h3, h4, h5⟩ := ih (i + 1) (some next) ev h cause k address hf hk ha
        obtain ⟨j, _, hij, _, hj, _⟩ := connectLoop_events P c rest (i + 1) (some next) ev h
        rw [hj] at hk
        simp only [Option.some.injEq, Hop.jump.injEq] at hk
        subst hk
        refine ⟨err, h1, h2, h3, ?_, ?_⟩
        · simp only
          rw [List.getLast?_append, h4]
          rfl
        · intro ev2 hm2
          simp only [List.mem_append] at hm2
          rcases hm2 with hm2 | hm2
          · exact ⟨i, by omega, (hopStep_events P c i host cur ev2 hm2).1⟩
          · exact h5 ev2 hm2

theorem connectTarget_cases (P : Provider) (c : Client) (cur : Option Transport) :
    (∃ err, connectTarget P c cur = (.error err, [])) ∨
    (∃ cfg err, connectTarget P c cur =
      (.error (Errorf "failed to dial to target host: " err),
        [⟨.dial .target "tcp" (c.TargetHost.Address ++ ":22") cfg, .failed err⟩])) ∨
    (∃ cfg next, cur = none ∧ connectTarget P c cur =
      (.ok next, [⟨.dial .target "tcp" (c.TargetHost.Address ++ ":22") cfg,
        .opened (.transport next)⟩])) ∨
    (∃ current err, connectTarget P c cur =
      (.error (Errorf "failed to dial to target host: " err),
        [⟨.openChannel .target current "tcp" (c.TargetHost.Address ++ ":22"), .failed err⟩])) ∨
    (∃ current cfg conn err, connectTarget P c cur =
      (.error (Errorf "failed to create client connection to target host: " err),
        [⟨.openChannel .target current "tcp" (c.TargetHost.Address ++ ":22"),
           .opened (.conn conn)⟩,
         ⟨.handshake .target conn (c.TargetHost.Address ++ ":22") cfg, .failed err⟩])) ∨
    (∃ current cfg conn next, cur = some current ∧ connectTarget P c cur =
      (.ok next,
        [⟨.openChannel .target current "tcp" (c.TargetHost.Address ++ ":22"),
           .opened (.conn conn)⟩,
         ⟨.handshake .target conn (c.TargetHost.Address ++ ":22") cfg,
           .opened (.transport next)⟩])) := by
  unfold connectTarget
  cases getClientConfig P c c.TargetHost with
  | error err => exact Or.inl ⟨err, rfl⟩
  | ok cfg =>
    cases cur with
    | none =>
      cases hd : P.Dial "tcp" (c.TargetHost.Address ++ ":22") cfg with
      | error err => exact Or.inr (Or.inl ⟨cfg, err, by simp only [hd]⟩)
      | ok next => exact Or.inr (Or.inr (Or.inl ⟨cfg, next, rfl, by simp only [hd]⟩))
    | some current =>
      cases hd : P.ClientDial current "tcp" (c.TargetHost.Address ++ ":22") with
      | error err => exact Or.inr (Or.inr (Or.inr (Or.inl ⟨current, err, by simp only [hd]⟩)))
      | ok conn =>
        cases hn : P.NewClientConn conn (c.TargetHost.Address ++ ":22") cfg with
        | error err =>
          exact Or.inr (Or.inr (Or.inr (Or.inr (Or.inl
            ⟨current, cfg, conn, err, by simp only [hd, hn]⟩))))
        | ok next =>
          exact Or.inr (Or.inr (Or.inr (Or.inr (Or.inr
            ⟨current, cfg, conn, next, rfl, by simp only [hd, hn]⟩))))

/-- Every action of the last part of `Connect` is for the target. -/
theorem connectTarget_events (P : Provider) (c : Client) (cur : Option Transport) (ev : Event)
    (h : ev ∈ (connectTarget P c cur).2) :
    ev.action.hop? = some .target ∧
      ev.action.address? = some (c.TargetHost.Address ++ ":22") := by
  rcases connectTarget_cases P c cur with ⟨_, e⟩ | ⟨_, _, e⟩ | ⟨_, _, _, e⟩ | ⟨_, _, e⟩ |
    ⟨_, _, _, _, e⟩ | ⟨_, _, _, _, _, e⟩ <;> rw [e] at h <;>
    simp only [List.mem_cons, List.mem_singleton, List.not_mem_nil, or_false] at h
  · rw [h]; exact ⟨rfl, rfl⟩
  · rw [h]; exact ⟨rfl, rfl⟩
  · rw [h]; exact ⟨rfl, rfl⟩
  · rcases h with h | h <;> rw [h] <;> exact ⟨rfl, rfl⟩
  · rcases h with h | h <;> rw [h] <;> exact ⟨rfl, rfl⟩

/-- A failed action for the target is the last action, and the error returned
wraps the cause under one of the two messages for the target. -/
theorem connectTarget_failure (P : Provider) (c : Client) (cur : Option Transport) (ev : Event)
    (h : ev ∈ (connectTarget P c cur).2) (cause : GoError) (hf : ev.failure? = some cause) :
    ∃ err, (connectTarget P c cur).1 = .error err ∧ err.Unwrap = some cause ∧
      (err.Error = "failed to dial to target host: " ++ cause.Error ∨
        err.Error = "failed to create client connection to target host: " ++ cause.Error) ∧
      (connectTarget P c cur).2.getLast? = some ev := by
  rcases connectTarget_cases P c cur with ⟨_, e⟩ | ⟨_, _, e⟩ | ⟨_, _, _, e⟩ | ⟨_, _, e⟩ |
    ⟨_, _, _, _, e⟩ | ⟨_, _, _, _, _, e⟩ <;> rw [e] at h ⊢ <;>
    simp only [List.mem_cons, List.mem_singleton, List.not_mem_nil, or_false] at h
  · subst h
    simp only [Event.failure?, Option.some.injEq] at hf
    subst hf
    exact ⟨_, rfl, rfl, Or.inl rfl, rfl⟩
  · subst h; simp [Event.failure?] at hf
  · subst h
    simp only [Event.failure?, Option.some.injEq] at hf
    subst hf
    exact ⟨_, rfl, rfl, Or.inl rfl, rfl⟩
  · rcases h with h | h
    · subst h; simp [Event.failure?] at hf
    · subst h
      simp only [Event.failure?, Option.some.injEq] at hf
      subst hf
      exact ⟨_, rfl, rfl, Or.inr rfl, rfl⟩
  · rcases h with h | h <;> subst h <;> simp [Event.failure?] at hf

theorem Connect_of_loop_error (P : Provider) (c : Client) (err : GoError)
    (h : (connectLoop P c 0 c.JumpHosts none).1 = .error err) :
    Connect P c = (.error err, (connectLoop P c 0 c.JumpHosts none).2) := by
  unfold Connect
  rcases hs : connectLoop P c 0 c.JumpHosts none with ⟨r, evs⟩
  rw [hs] at h
  simp only at h
  subst h
  rfl

theorem Connect_of_loop_ok (P : Provider) (c : Client) (cur : Option Transport)
    (h : (connectLoop P c 0 c.JumpHosts none).1 = .ok cur) :
    Connect P c = ((connectTarget P c cur).1,
      (connectLoop P c 0 c.JumpHosts none).2 ++ (connectTarget P c cur).2) := by
  unfold Connect
  rcases hs : connectLoop P c 0 c.JumpHosts none with ⟨r, evs⟩
  rw [hs] at h
  simp only at h
  subst h
  rfl

/-- C2: when a network step for the jump host at index `k` fails, `Connect`
returns an error and no transport, the failed step is the last action it
performs, and every action it performs is for a jump host of index at most `k`:
none is for a later jump host and none for the target. -/
theorem Connect_stops_at_failed_jump_host (P : Provider) (c : Client) (k : Nat)
    (_hk : k < c.JumpHosts.length) (ev : Event) (hev : ev ∈ (Connect P c).2)
    (hhop : ev.action.hop? = some (.jump k)) (hfail : ev.failure? ≠ none) :
    (∃ err, (Connect P c).1 = .error err) ∧
    (Connect P c).2.getLast? = some ev ∧
    ∀ ev2 ∈ (Connect P c).2, ∃ j, j ≤ k ∧ ev2.action.hop? = some (.jump j) := by
  obtain ⟨cause, hcause⟩ := Option.ne_none_iff_exists'.mp hfail
  cases hl : (connectLoop P c 0 c.JumpHosts none).1 with
  | error err =>
    rw [Connect_of_loop_error P c err hl] at hev ⊢
    obtain ⟨j, host, _, _, hj, ha⟩ := connectLoop_events P c c.JumpHosts 0 none ev hev
    obtain ⟨err2, _, _, _, h4, h5⟩ :=
      connectLoop_failure P c c.JumpHosts 0 none ev hev cause k _ hcause hhop ha
    exact ⟨⟨err, rfl⟩, h4, h5⟩
  | ok cur =>
    rw [Connect_of_loop_ok P c cur hl] at hev
    simp only [List.mem_append] at hev
    rcases hev with hev | hev
    · have := connectLoop_ok P c c.JumpHosts 0 none cur hl ev hev
      exact absurd this hfail
    · have := (connectTarget_events P c cur ev hev).1
      rw [this] at hhop
      simp at hhop

/-- Witness for C2: through `bobHost` and `plainHost`, with no channel to be
opened, the channel-open for the jump host at index 1 fails and is the last
action. -/
theorem Connect_stops_at_failed_jump_host_witness :
    (Connect noChannelProvider (aliceClient [bobHost, plainHost])).2.getLast? =
      some ⟨.openChannel (.jump 1) ⟨0⟩ "tcp" "10.0.0.2:22", .failed (.leaf "unreachable")⟩ :=
  (Connect_stops_at_failed_jump_host noChannelProvider (aliceClient [bobHost, plainHost]) 1
    (by decide) ⟨.openChannel (.jump 1) ⟨0⟩ "tcp" "10.0.0.2:22", .failed (.leaf "unreachable")⟩
    (by decide) rfl (by decide)).2.1

/-- C7, as the code has it: when a network step of `Connect` fails, the error
returned wraps the cause the provider gave.  For a step at a jump host the
message contains the address of that host with `:22`.  For a step at the
target the message is `failed to dial to target host: ` or
`failed to create client connection to target host: ` followed by the message
of the cause: it names the target by its role. -/
theorem Connect_error_context (P : Provider) (c : Client) (ev : Event)
    (hev : ev ∈ (Connect P c).2) (cause : GoError) (hfail : ev.failure? = some cause) :
    ∃ err, (Connect P c).1 = .error err ∧ err.Unwrap = some cause ∧
      ((∃ k host, ev.action.hop? = some (.jump k) ∧ c.JumpHosts[k]? = some host ∧
          ev.action.address? = some (host.Address ++ ":22") ∧
          Contains err.Error (host.Address ++ ":22")) ∨
       (ev.action.hop? = some .target ∧
          ev.action.address? = some (c.TargetHost.Address ++ ":22") ∧
          (err.Error = "failed to dial to target host: " ++ cause.Error ∨
           err.Error = "failed to create client connection to target host: " ++
             cause.Error))) := by
  cases hl : (connectLoop P c 0 c.JumpHosts none).1 with
  | error err =>
    rw [Connect_of_loop_error P c err hl] at hev ⊢
    obtain ⟨j, host, _, hget, hj, ha⟩ := connectLoop_events P c c.JumpHosts 0 none ev hev
    obtain ⟨err2, h1, h2, h3, _, _⟩ :=
      connectLoop_failure P c c.JumpHosts 0 none ev hev cause j _ hfail hj ha
    rw [hl] at h1
    exact ⟨err2, (by simpa using h1), h2, Or.inl ⟨j, host, hj, by simpa using hget, ha, h3⟩⟩
  | ok cur =>
    rw [Connect_of_loop_ok P c cur hl] at hev ⊢
    simp only [List.mem_append] at hev
    rcases hev with hev | hev
    · have := connectLoop_ok P c c.JumpHosts 0 none cur hl ev hev
      rw [this] at hfail
      simp at hfail
    · obtain ⟨err, h1, h2, h3, _⟩ := connectTarget_failure P c cur ev hev cause hfail
      obtain ⟨e1, e2⟩ := connectTarget_events P c cur ev hev
      exact ⟨err, h1, h2, Or.inr ⟨e1, e2, h3⟩⟩

/-- Witness for C7: the refused dial of the jump host `bobHost`. -/
theorem Connect_error_context_witness :
    ∃ err, (Connect refusedProvider (aliceClient [bobHost])).1 = .error err ∧
      err.Unwrap = some (.leaf "refused") ∧
      ((∃ k host, some (Hop.jump 0) = some (.jump k) ∧
          (aliceClient [bobHost]).JumpHosts[k]? = some host ∧
          some "10.0.0.1:22" = some (host.Address ++ ":22") ∧
          Contains err.Error (host.Address ++ ":22")) ∨
       (some (Hop.jump 0) = some .target ∧
          some "10.0.0.1:22" = some ((aliceClient [bobHost]).TargetHost.Address ++ ":22") ∧
          (err.Error = "failed to dial to target host: " ++ (GoError.leaf "refused").Error ∨
           err.Error = "failed to create client connection to target host: " ++
             (GoError.leaf "refused").Error))) :=
  Connect_error_context refusedProvider (aliceClient [bobHost])
    ⟨.dial (.jump 0) "tcp" "10.0.0.1:22"
      { User := "bob", Auth := [.PublicKeys "signer:key@~/.ssh/id"] },
     .failed (.leaf "refused")⟩
    (by decide) (.leaf "refused") rfl

/-- Counterexample for C7: a direct connection to `10.0.0.5` whose dial is
refused.  The error wraps the cause, and its message does not contain the
address `10.0.0.5:22`. -/
theorem Connect_target_error_lacks_address :
    Connect refusedProvider (aliceClient []) =
      (.error (.wrap "failed to dial to target host: refused" (.leaf "refused")),
        [⟨.dial .target "tcp" "10.0.0.5:22" { User := "alice", Auth := [.Password "p"] },
          .failed (.leaf "refused")⟩]) ∧
    ¬ Contains "failed to dial to target host: refused" "10.0.0.5:22" := by
  decide

/-- C8, the code at a failing input: through the jump host `bobHost`, with no
channel to be opened, `Connect` returns an error after the dial of the jump
host has produced transport 0, and that transport is still open when it
returns. -/
theorem Connect_failure_leaves_transport_open :
    (Connect noChannelProvider (aliceClient [bobHost])).1 =
      .error (.wrap "failed to dial to target host: unreachable" (.leaf "unreachable")) ∧
    openResources (Connect noChannelProvider (aliceClient [bobHost])).2 =
      [.transport ⟨0⟩] := by
  decide

theorem Chained_append (xs ys : List Event) :
    ∀ prev : Option Handle, Chained prev xs →
      Chained (xs.foldl (fun _ ev => ev.produced?) prev) ys → Chained prev (xs ++ ys) := by
  induction xs with
  | nil => intro prev _ h; exact h
  | cons x xs ih =>
    intro prev h1 h2
    exact ⟨h1.1, ih _ h1.2 h2⟩

theorem hopStep_success_first (P : Provider) (c : Client) (i : Nat) (host : HostConfig)
    (hcfg : ∃ cfg, getClientConfig P c host = .ok cfg)
    (hnet : ∀ ev ∈ (hopStep P c i host none).2, ev.failure? = none) :
    ∃ cfg t, hopStep P c i host none =
      (.ok t, [⟨.dial (.jump i) "tcp" (host.Address ++ ":22") cfg, .opened (.transport t)⟩]) := by
  obtain ⟨cfg, hcfg⟩ := hcfg
  cases hd : P.Dial "tcp" (host.Address ++ ":22") cfg with
  | error err =>
    have e : hopStep P c i host none =
        (.error (Errorf ("failed to connect to " ++ (host.Address ++ ":22") ++ ": ") err),
          [⟨.dial (.jump i) "tcp" (host.Address ++ ":22") cfg, .failed err⟩]) := by
      simp only [hopStep, hcfg, hd]
    rw [e] at hnet
    have := hnet _ (List.mem_singleton_self _)
    simp [Event.failure?] at this
  | ok t => exact ⟨cfg, t, by simp only [hopStep, hcfg, hd]⟩

theorem hopStep_success_next (P : Provider) (c : Client) (i : Nat) (host : HostConfig)
    (cur : Transport) (hcfg : ∃ cfg, getClientConfig P c host = .ok cfg)
    (hnet : ∀ ev ∈ (hopStep P c i host (some cur)).2, ev.failure? = none) :
    ∃ cfg conn t, hopStep P c i host (some cur) =
      (.ok t,
        [⟨.openChannel (.jump i) cur "tcp" (host.Address ++ ":22"), .opened (.conn conn)⟩,
         ⟨.handshake (.jump i) conn (host.Address ++ ":22") cfg, .opened (.transport t)⟩]) := by
  obtain ⟨cfg, hcfg⟩ := hcfg
  cases hd : P.ClientDial cur "tcp" (host.Address ++ ":22") with
  | error err =>
    have e : hopStep P c i host (some cur) =
        (.error (Errorf ("failed to dial from current host to " ++ (host.Address ++ ":22") ++
            ": ") err),
          [⟨.openChannel (.jump i) cur "tcp" (host.Address ++ ":22"), .failed err⟩]) := by
      simp only [hopStep, hcfg, hd]
    rw [e] at hnet
    have := hnet _ (List.mem_singleton_self _)
    simp [Event.failure?] at this
  | ok conn =>
    cases hn : P.NewClientConn conn (host.Address ++ ":22") cfg with
    | error err =>
      have e : hopStep P c i host (some cur) =
          (.error (Errorf ("failed to create client connection to " ++
              (host.Address ++ ":22") ++ ": ") err),
            [⟨.openChannel (.jump i) cur "tcp" (host.Address ++ ":22"), .opened (.conn conn)⟩,
             ⟨.handshake (.jump i) conn (host.Address ++ ":22") cfg, .failed err⟩]) := by
        simp only [hopStep, hcfg, hd, hn]
      rw [e] at hnet
      have := hnet ⟨.handshake (.jump i) conn (host.Address ++ ":22") cfg, .failed err⟩
        (by simp)
      simp [Event.failure?] at this
    | ok t => exact ⟨cfg, conn, t, by simp only [hopStep, hcfg, hd, hn]⟩

/-- The actions of a loop body are actions of the loop. -/
theorem hopStep_sub_connectLoop (P : Provider) (c : Client) (i : Nat) (host : HostConfig)
    (rest : List HostConfig) (cur : Option Transport) (ev : Event)
    (h : ev ∈ (hopStep P c i host cur).2) : ev ∈ (connectLoop P c i (host :: rest) cur).2 := by
  cases hr : (hopStep P c i host cur).1 with
  | error err => rw [connectLoop_cons_error P c i host rest cur err hr]; exact h
  | ok next =>
    rw [connectLoop_cons_ok P c i host rest cur next hr]
    exact List.mem_append_left _ h

/-- With every step succeeding, the loop from a transport in hand tunnels to
each host in turn. -/
theorem connectLoop_success (P : Provider) (c : Client) (hosts : List HostConfig) :
    ∀ (i : Nat) (cur : Transport),
      (∀ host ∈ hosts, ∃ cfg, getClientConfig P c host = .ok cfg) →
      (∀ ev ∈ (connectLoop P c i hosts (some cur)).2, ev.failure? = none) →
      ∃ last, (connectLoop P c i hosts (some cur)).1 = .ok (some last) ∧
        (connectLoop P c i hosts (some cur)).2.map (fun ev => ev.action.step?) =
          (hosts.enumFrom i).flatMap (fun ih => tunnel (.jump ih.1) ih.2) ∧
        Chained (some (.transport cur)) (connectLoop P c i hosts (some cur)).2 ∧
        (connectLoop P c i hosts (some cur)).2.foldl (fun _ ev => ev.produced?)
          (some (.transport cur)) = some (.transport last) := by
  induction hosts with
  | nil =>
    intro i cur _ _
    exact ⟨cur, rfl, rfl, trivial, rfl⟩
  | cons host rest ih =>
    intro i cur hcfg hnet
    obtain ⟨cfg, conn, t, hs⟩ :=
      hopStep_success_next P c i host cur (hcfg host (List.mem_cons_self _ _))
        (fun ev hm => hnet ev (hopStep_sub_connectLoop P c i host rest (some cur) ev hm))
    have hr : (hopStep P c i host (some cur)).1 = .ok t := by rw [hs]
    rw [connectLoop_cons_ok P c i host rest (some cur) t hr] at hnet ⊢
    obtain ⟨last, h1, h2, h4, h5⟩ :=
      ih (i + 1) t (fun h hm => hcfg h (List.mem_cons_of_mem _ hm))
        (fun ev hm => hnet ev (List.mem_append_right _ hm))
    rw [hs]
    refine ⟨last, h1, ?_, ?_, ?_⟩
    · simp only [List.map_append, List.map_cons, List.map_nil, List.enumFrom_cons,
        List.flatMap_cons]
      rw [h2]
      rfl
    · exact ⟨rfl, rfl, h4⟩
    · simpa [List.foldl_append, Event.produced?] using h5

theorem connectTarget_success_first (P : Provider) (c : Client)
    (hcfg : ∃ cfg, getClientConfig P c c.TargetHost = .ok cfg)
    (hnet : ∀ ev ∈ (connectTarget P c none).2, ev.failure? = none) :
    ∃ cfg t, connectTarget P c none =
      (.ok t, [⟨.dial .target "tcp" (c.TargetHost.Address ++ ":22") cfg,
        .opened (.transport t)⟩]) := by
  obtain ⟨cfg, hcfg⟩ := hcfg
  cases hd : P.Dial "tcp" (c.TargetHost.Address ++ ":22") cfg with
  | error err =>
    have e : connectTarget P c none =
        (.error (Errorf "failed to dial to target host: " err),
          [⟨.dial .target "tcp" (c.TargetHost.Address ++ ":22") cfg, .failed err⟩]) := by
      simp only [connectTarget, hcfg, hd]
    rw [e] at hnet
    have := hnet _ (List.mem_singleton_self _)
    simp [Event.failure?] at this
  | ok t => exact ⟨cfg, t, by simp only [connectTarget, hcfg, hd]⟩

theorem connectTarget_success_next (P : Provider) (c : Client) (cur : Transport)
    (hcfg : ∃ cfg, getClientConfig P c c.TargetHost = .ok cfg)
    (hnet : ∀ ev ∈ (connectTarget P c (some cur)).2, ev.failure? = none) :
    ∃ cfg conn t, connectTarget P c (some cur) =
      (.ok t,
        [⟨.openChannel .target cur "tcp" (c.TargetHost.Address ++ ":22"), .opened (.conn conn)⟩,
         ⟨.handshake .target conn (c.TargetHost.Address ++ ":22") cfg,
           .opened (.transport t)⟩]) := by
  obtain ⟨cfg, hcfg⟩ := hcfg
  cases hd : P.ClientDial cur "tcp" (c.TargetHost.Address ++ ":22") with
  | error err =>
    have e : connectTarget P c (some cur) =
        (.error (Errorf "failed to dial to target host: " err),
          [⟨.openChannel .target cur "tcp" (c.TargetHost.Address ++ ":22"), .failed err⟩]) := by
      simp only [connectTarget, hcfg, hd]
    rw [e] at hnet
    have := hnet _ (List.mem_singleton_self _)
    simp [Event.failure?] at this
  | ok conn =>
    cases hn : P.NewClientConn conn (c.TargetHost.Address ++ ":22") cfg with
    | error err =>
      have e : connectTarget P c (some cur) =
          (.error (Errorf "failed to create client connection to target host: " err),
            [⟨.openChannel .target cur "tcp" (c.TargetHost.Address ++ ":22"),
               .opened (.conn conn)⟩,
             ⟨.handshake .target conn (c.TargetHost.Address ++ ":22") cfg, .failed err⟩]) := by
        simp only [connectTarget, hcfg, hd, hn]
      rw [e] at hnet
      have := hnet ⟨.handshake .target conn (c.TargetHost.Address ++ ":22") cfg, .failed err⟩
        (by simp)
      simp [Event.failure?] at this
    | ok t => exact ⟨cfg, conn, t, by simp only [connectTarget, hcfg, hd, hn]⟩

/-- The actions of the loop are actions of `Connect`. -/
theorem connectLoop_sub_Connect (P : Provider) (c : Client) (ev : Event)
    (h : ev ∈ (connectLoop P c 0 c.JumpHosts none).2) : ev ∈ (Connect P c).2 := by
  cases hl : (connectLoop P c 0 c.JumpHosts none).1 with
  | error err => rw [Connect_of_loop_error P c err hl]; exact h
  | ok cur =>
    rw [Connect_of_loop_ok P c cur hl]
    exact List.mem_append_left _ h

/-- C1, as the code has it: when every network step that `Connect` performs
succeeds and every host of the chain resolves to a configuration, the network
actions of `Connect` are exactly those of `chainActions`: without jump hosts
one direct dial of the target; otherwise a direct dial of the first jump host,
a channel-open and a handshake for each further jump host in list order, and a
channel-open and a handshake for the target.  Each channel-open goes through
the transport the step before produced and each handshake over the channel
just opened, and the transport returned is the one the last action produced. -/
theorem Connect_success_trace (P : Provider) (c : Client)
    (hnet : ∀ ev ∈ (Connect P c).2, ev.failure? = none) (hcred : CredentialsResolve P c) :
    (Connect P c).2.map (fun ev => ev.action.step?) = chainActions c ∧
    Chained none (Connect P c).2 ∧
    ∃ t, (Connect P c).1 = .ok t ∧
      (Connect P c).2.getLast?.bind Event.produced? = some (.transport t) := by
  have htarget : ∃ cfg, getClientConfig P c c.TargetHost = .ok cfg :=
    hcred c.TargetHost (by simp)
  have hnetl : ∀ ev ∈ (connectLoop P c 0 c.JumpHosts none).2, ev.failure? = none :=
    fun ev hm => hnet ev (connectLoop_sub_Connect P c ev hm)
  cases hJ : c.JumpHosts with
  | nil =>
    have hl : (connectLoop P c 0 c.JumpHosts none).1 = .ok none := by rw [hJ]; rfl
    have hl2 : (connectLoop P c 0 c.JumpHosts none).2 = [] := by rw [hJ]; rfl
    rw [Connect_of_loop_ok P c none hl, hl2] at hnet ⊢
    obtain ⟨cfg, t, ht⟩ := connectTarget_success_first P c htarget
      (fun ev hm => hnet ev (by simpa using hm))
    rw [ht]
    refine ⟨?_, ⟨rfl, trivial⟩, t, rfl, rfl⟩
    simp only [chainActions, hJ]
    rfl
  | cons first others =>
    have hfirst : ∃ cfg, getClientConfig P c first = .ok cfg :=
      hcred first (by simp [hJ])
    have hothers : ∀ host ∈ others, ∃ cfg, getClientConfig P c host = .ok cfg :=
      fun host hm => hcred host (by simp [hJ, hm])
    rw [hJ] at hnetl
    obtain ⟨cfg0, t0, hs⟩ := hopStep_success_first P c 0 first hfirst
      (fun ev hm => hnetl ev (hopStep_sub_connectLoop P c 0 first others none ev hm))
    have hr : (hopStep P c 0 first none).1 = .ok t0 := by rw [hs]
    rw [connectLoop_cons_ok P c 0 first others none t0 hr] at hnetl
    obtain ⟨last, h1, h2, h4, h5⟩ := connectLoop_success P c others 1 t0 hothers
      (fun ev hm => hnetl ev (List.mem_append_right _ hm))
    have hloop : connectLoop P c 0 c.JumpHosts none =
        (.ok (some last),
          ⟨.dial (.jump 0) "tcp" (first.Address ++ ":22") cfg0, .opened (.transport t0)⟩ ::
            (connectLoop P c 1 others (some t0)).2) := by
      rw [hJ, connectLoop_cons_ok P c 0 first others none t0 hr, hs, h1]
      rfl
    have hl : (connectLoop P c 0 c.JumpHosts none).1 = .ok (some last) := by rw [hloop]
    rw [Connect_of_loop_ok P c (some last) hl] at hnet ⊢
    obtain ⟨cfg, conn, t, ht⟩ := connectTarget_success_next P c last htarget
      (fun ev hm => hnet ev (List.mem_append_right _ hm))
    rw [hloop, ht]
    refine ⟨?_, ?_, t, rfl, ?_⟩
    · simp only [chainActions, hJ, List.map_append, List.map_cons, List.map_nil,
        List.cons_append]
      rw [h2]
      rfl
    · refine ⟨rfl, ?_⟩
      apply Chained_append _ _ _ h4
      rw [h5]
      exact ⟨rfl, rfl, trivial⟩
    · have e : ∀ (x a b : Event) (xs : List Event),
          (x :: (xs ++ [a, b])).getLast? = some b := by
        intro x a b xs
        have : x :: (xs ++ [a, b]) = (x :: xs ++ [a]) ++ [b] := by simp
        rw [this, List.getLast?_concat]
      simp only [List.cons_append]
      rw [e]
      rfl

/-- Witness for C1: the scenario of the specification, `alice` on `10.0.0.5`
through `bob` on `10.0.0.1`. -/
theorem Connect_success_trace_witness :
    (Connect okProvider (aliceClient [bobHost])).2.map (fun ev => ev.action.step?) =
      [some (.dial, .jump 0, "10.0.0.1:22"), some (.openChannel, .target, "10.0.0.5:22"),
       some (.handshake, .target, "10.0.0.5:22")] :=
  (Connect_success_trace okProvider (aliceClient [bobHost]) (by decide)
    (by
      intro host hm
      simp only [aliceClient, List.singleton_append, List.mem_cons, List.mem_singleton,
        List.not_mem_nil, or_false] at hm
      rcases hm with hm | hm
      · exact ⟨{ User := "bob", Auth := [.PublicKeys "signer:key@~/.ssh/id"] },
          by rw [hm]; decide⟩
      · exact ⟨{ User := "alice", Auth := [.Password "p"] }, by rw [hm]; decide⟩)).1.trans
    (by decide)

/-- Counterexample for C1: every network step succeeds on `noKeyProvider`, but
the key file of the jump host cannot be read.  `Connect` returns the error of
the key file and performs no network action at all, where the claim has a dial
of the jump host and a tunnel to the target. -/
theorem Connect_unreadable_key_no_chain :
    NetworkSucceeds noKeyProvider ∧
    (∀ ev ∈ (Connect noKeyProvider (aliceClient [bobHost])).2, ev.failure? = none) ∧
    Connect noKeyProvider (aliceClient [bobHost]) =
      (.error (.wrap "unable to read private key: no such file" (.leaf "no such file")), []) ∧
    chainActions (aliceClient [bobHost]) =
      [some (.dial, .jump 0, "10.0.0.1:22"), some (.openChannel, .target, "10.0.0.5:22"),
       some (.handshake, .target, "10.0.0.5:22")] :=
  ⟨⟨fun _ _ _ => ⟨_, rfl⟩, fun _ _ _ => ⟨_, rfl⟩, fun _ _ _ => ⟨_, rfl⟩⟩, by decide, by decide,
    by decide⟩

/-! ## `StreamCommand` -/

/-- Every action of `Connect` is a dial, a channel-open or a handshake. -/
theorem Connect_events (P : Provider) (c : Client) (ev : Event) (h : ev ∈ (Connect P c).2) :
    ∃ hop, ev.action.hop? = some hop := by
  cases hl : (connectLoop P c 0 c.JumpHosts none).1 with
  | error err =>
    rw [Connect_of_loop_error P c err hl] at h
    obtain ⟨j, _, _, _, hj, _⟩ := connectLoop_events P c c.JumpHosts 0 none ev h
    exact ⟨_, hj⟩
  | ok cur =>
    rw [Connect_of_loop_ok P c cur hl] at h
    simp only [List.mem_append] at h
    rcases h with h | h
    · obtain ⟨j, _, _, _, hj, _⟩ := connectLoop_events P c c.JumpHosts 0 none ev h
      exact ⟨_, hj⟩
    · exact ⟨_, (connectTarget_events P c cur ev h).1⟩

theorem Connect_no_start (P : Provider) (c : Client) (ev : Event) (h : ev ∈ (Connect P c).2) :
    ev.isStart = false := by
  obtain ⟨hop, hh⟩ := Connect_events P c ev h
  rcases ev with ⟨action, outcome⟩
  cases action <;> simp [Action.hop?] at hh <;> rfl

theorem StreamCommand_of_connect_error {H₁ H₂ : Type} (P : Provider) (c : Client)
    (command : String) (ch : Option H₁) (sh : Option H₂) (err : GoError)
    (h : (Connect P c).1 = .error err) :
    StreamCommand P c command ch sh = (some err, (Connect P c).2) := by
  unfold StreamCommand
  rcases hs : Connect P c with ⟨r, evs⟩
  rw [hs] at h
  simp only at h
  subst h
  rfl

theorem StreamCommand_of_session_error {H₁ H₂ : Type} (P : Provider) (c : Client)
    (command : String) (ch : Option H₁) (sh : Option H₂) (t : Transport) (err : GoError)
    (h : (Connect P c).1 = .ok t) (hn : P.NewSession t = .error err) :
    StreamCommand P c command ch sh =
      (some (Errorf "failed to create session on target host: " err),
        (Connect P c).2 ++ [⟨.newSession t, .failed err⟩, ⟨.closeClient t, .done⟩]) := by
  unfold StreamCommand
  rcases hs : Connect P c with ⟨r, evs⟩
  rw [hs] at h
  simp only at h
  subst h
  simp only [hn, after]

theorem StreamCommand_of_session {H₁ H₂ : Type} (P : Provider) (c : Client)
    (command : String) (ch : Option H₁) (sh : Option H₂) (t : Transport) (s : Session)
    (h : (Connect P c).1 = .ok t) (hn : P.NewSession t = .ok s) :
    StreamCommand P c command ch sh =
      ((if sh.isSome then streamSeparateOutput P s command
          else if ch.isSome then streamCombinedOutput P s command
          else (some (.leaf "no valid handler provided"), [])).1,
        (Connect P c).2 ++ ([⟨.newSession t, .opened (.session s)⟩] ++
          (if sh.isSome then streamSeparateOutput P s command
            else if ch.isSome then streamCombinedOutput P s command
            else (some (.leaf "no valid handler provided"), [])).2 ++
          [⟨.closeSession s, .done⟩, ⟨.closeClient t, .done⟩])) := by
  unfold StreamCommand
  rcases hs : Connect P c with ⟨r, evs⟩
  rw [hs] at h
  simp only at h
  subst h
  simp only [hn, after]

/-- C4, as the code has it: with both handlers nil, `StreamCommand` first runs
`Connect` and then creates a session.  It returns the error of `Connect` or of
the session creation when one of them fails, and the error
`no valid handler provided` when both succeed, having then dialled and created
the session.  In every case it returns an error and starts no remote command. -/
theorem StreamCommand_without_handler {H₁ H₂ : Type} (P : Provider) (c : Client)
    (command : String) :
    (∀ err, (Connect P c).1 = .error err →
      StreamCommand P c command (none : Option H₁) (none : Option H₂) =
        (some err, (Connect P c).2)) ∧
    (∀ t err, (Connect P c).1 = .ok t → P.NewSession t = .error err →
      StreamCommand P c command (none : Option H₁) (none : Option H₂) =
        (some (Errorf "failed to create session on target host: " err),
          (Connect P c).2 ++ [⟨.newSession t, .failed err⟩, ⟨.closeClient t, .done⟩])) ∧
    (∀ t s, (Connect P c).1 = .ok t → P.NewSession t = .ok s →
      StreamCommand P c command (none : Option H₁) (none : Option H₂) =
        (some (.leaf "no valid handler provided"),
          (Connect P c).2 ++ [⟨.newSession t, .opened (.session s)⟩,
            ⟨.closeSession s, .done⟩, ⟨.closeClient t, .done⟩])) ∧
    (StreamCommand P c command (none : Option H₁) (none : Option H₂)).1 ≠ none ∧
    ∀ ev ∈ (StreamCommand P c command (none : Option H₁) (none : Option H₂)).2,
      ev.isStart = false := by
  have h1 := StreamCommand_of_connect_error P c command (none : Option H₁) (none : Option H₂)
  have h2 := StreamCommand_of_session_error P c command (none : Option H₁) (none : Option H₂)
  have h3 : ∀ t s, (Connect P c).1 = .ok t → P.NewSession t = .ok s →
      StreamCommand P c command (none : Option H₁) (none : Option H₂) =
        (some (.leaf "no valid handler provided"),
          (Connect P c).2 ++ [⟨.newSession t, .opened (.session s)⟩,
            ⟨.closeSession s, .done⟩, ⟨.closeClient t, .done⟩]) := by
    intro t s ht hs
    rw [StreamCommand_of_session P c command none none t s ht hs]
    rfl
  refine ⟨h1, h2, h3, ?_, ?_⟩
  · cases hc : (Connect P c).1 with
    | error err => rw [h1 err hc]; simp
    | ok t =>
      cases hn : P.NewSession t with
      | error err => rw [h2 t err hc hn]; simp
      | ok s => rw [h3 t s hc hn]; simp
  · intro ev hm
    cases hc : (Connect P c).1 with
    | error err =>
      rw [h1 err hc] at hm
      exact Connect_no_start P c ev hm
    | ok t =>
      cases hn : P.NewSession t with
      | error err =>
        rw [h2 t err hc hn] at hm
        simp only [List.mem_append, List.mem_cons, List.mem_singleton, List.not_mem_nil,
          or_false] at hm
        rcases hm with hm | hm | hm
        · exact Connect_no_start P c ev hm
        · rw [hm]; rfl
        · rw [hm]; rfl
      | ok s =>
        rw [h3 t s hc hn] at hm
        simp only [List.mem_append, List.mem_cons, List.mem_singleton, List.not_mem_nil,
          or_false] at hm
        rcases hm with hm | hm | hm | hm
        · exact Connect_no_start P c ev hm
        · rw [hm]; rfl
        · rw [hm]; rfl
        · rw [hm]; rfl

/-- Witness for C4: a direct connection on which every step succeeds. -/
theorem StreamCommand_without_handler_witness :
    StreamCommand okProvider (aliceClient []) "ls" (none : Option Unit) (none : Option Unit) =
      (some (.leaf "no valid handler provided"),
        (Connect okProvider (aliceClient [])).2 ++ [⟨.newSession ⟨0⟩, .opened (.session ⟨0⟩)⟩,
          ⟨.closeSession ⟨0⟩, .done⟩, ⟨.closeClient ⟨0⟩, .done⟩]) :=
  (StreamCommand_without_handler okProvider (aliceClient []) "ls").2.2.1 ⟨0⟩ ⟨0⟩
    (by decide) (by decide)

/-- Counterexample for C4: with both handlers nil on a direct connection,
`StreamCommand` dials the target and creates a session before it returns the
error: two network actions are performed. -/
theorem StreamCommand_without_handler_dials :
    StreamCommand okProvider (aliceClient []) "ls" (none : Option Unit) (none : Option Unit) =
      (some (.leaf "no valid handler provided"),
        [⟨.dial .target "tcp" "10.0.0.5:22" { User := "alice", Auth := [.Password "p"] },
           .opened (.transport ⟨0⟩)⟩,
         ⟨.newSession ⟨0⟩, .opened (.session ⟨0⟩)⟩,
         ⟨.closeSession ⟨0⟩, .done⟩, ⟨.closeClient ⟨0⟩, .done⟩]) ∧
    ((StreamCommand okProvider (aliceClient []) "ls" (none : Option Unit)
      (none : Option Unit)).2.filter Event.isNetwork).length = 2 := by
  decide

/-- An error of `streamCombinedOutput` or `streamSeparateOutput` wraps a cause:
it is never the error `no valid handler provided`. -/
theorem streamOutput_error (P : Provider) (s : Session) (command : String)
    (shape : HandlerShape) :
    (streamOutput P s command shape).1 ≠ some (.leaf "no valid handler provided") := by
  unfold streamOutput
  cases P.StdoutPipe s with
  | error e => simp [Errorf]
  | ok _ =>
    cases P.StderrPipe s with
    | error e => simp [after, Errorf]
    | ok _ =>
      cases P.Start s command with
      | error e => simp [after, Errorf]
      | ok _ =>
        cases P.Wait s with
        | error e => simp [after, Errorf]
        | ok _ => simp [after]

/-- Once both pipes are set up, the remote command is started. -/
theorem streamOutput_starts (P : Provider) (s : Session) (command : String)
    (shape : HandlerShape) (h1 : P.StdoutPipe s = .ok ()) (h2 : P.StderrPipe s = .ok ()) :
    ∃ ev ∈ (streamOutput P s command shape).2, ev.action = .start s command := by
  unfold streamOutput
  rw [h1, h2]
  cases P.Start s command with
  | error e => exact ⟨⟨.start s command, .failed e⟩, by simp [after], rfl⟩
  | ok _ => exact ⟨⟨.start s command, .done⟩, by simp [after], rfl⟩

/-- C5, as the code has it: `StreamCommand` looks at `separateHandler` first.
With both handlers supplied it behaves exactly as with the separate handler
alone: once connected and with a session it runs `streamSeparateOutput`, so
the remote command is started once both pipes are set up, and the error
`no valid handler provided` is not returned.  With the combined handler alone
it runs `streamCombinedOutput`. -/
theorem StreamCommand_handler_choice {H₁ H₂ : Type} (P : Provider) (c : Client)
    (command : String) (ch : H₁) (sh : H₂) :
    StreamCommand P c command (some ch) (some sh) =
      StreamCommand P c command (none : Option H₁) (some sh) ∧
    ∀ t s, (Connect P c).1 = .ok t → P.NewSession t = .ok s →
      StreamCommand P c command (some ch) (some sh) =
        ((streamSeparateOutput P s command).1,
          (Connect P c).2 ++ ([⟨.newSession t, .opened (.session s)⟩] ++
            (streamSeparateOutput P s command).2 ++
            [⟨.closeSession s, .done⟩, ⟨.closeClient t, .done⟩])) ∧
      StreamCommand P c command (some ch) (none : Option H₂) =
        ((streamCombinedOutput P s command).1,
          (Connect P c).2 ++ ([⟨.newSession t, .opened (.session s)⟩] ++
            (streamCombinedOutput P s command).2 ++
            [⟨.closeSession s, .done⟩, ⟨.closeClient t, .done⟩])) ∧
      (StreamCommand P c command (some ch) (some sh)).1 ≠
        some (.leaf "no valid handler provided") ∧
      (P.StdoutPipe s = .ok () → P.StderrPipe s = .ok () →
        ∃ ev ∈ (StreamCommand P c command (some ch) (some sh)).2,
          ev.action = .start s command) := by
  refine ⟨rfl, ?_⟩
  intro t s ht hs
  have e1 := StreamCommand_of_session P c command (some ch) (some sh) t s ht hs
  have e2 := StreamCommand_of_session P c command (some ch) (none : Option H₂) t s ht hs
  simp only [Option.isSome_some, Option.isSome_none, if_true, Bool.false_eq_true, if_false]
    at e1 e2
  refine ⟨e1, e2, ?_, ?_⟩
  · rw [e1]
    exact streamOutput_error P s command .separate
  · intro h1 h2
    obtain ⟨ev, hm, he⟩ := streamOutput_starts P s command .separate h1 h2
    refine ⟨ev, ?_, he⟩
    rw [e1]
    simp only [List.mem_append]
    exact Or.inr (Or.inl (Or.inr hm))

/-- Witness for C5: both handlers supplied on a direct connection on which
every step succeeds; the call returns no error. -/
theorem StreamCommand_handler_choice_witness :
    (StreamCommand okProvider (aliceClient []) "ls" (some ()) (some ())).1 =
      (streamSeparateOutput okProvider ⟨0⟩ "ls").1 :=
  (congrArg (fun r => r.1)
    ((StreamCommand_handler_choice okProvider (aliceClient []) "ls" () ()).2 ⟨0⟩ ⟨0⟩
      (by decide) (by decide)).1 :)

/-- Counterexample for C5: with both handlers supplied, `StreamCommand` starts
the remote command `ls` and returns no error. -/
theorem StreamCommand_both_handlers_runs :
    (StreamCommand okProvider (aliceClient []) "ls" (some ()) (some ())).1 = none ∧
    (⟨.start ⟨0⟩ "ls", .done⟩ : Event) ∈
      (StreamCommand okProvider (aliceClient []) "ls" (some ()) (some ())).2 := by
  decide

/-! ## `SCPUpload` -/

theorem stdinBytes_append (xs ys : List Event) :
    stdinBytes (xs ++ ys) = stdinBytes xs ++ stdinBytes ys := by
  induction xs with
  | nil => simp [stdinBytes]
  | cons x xs ih =>
    rcases x with ⟨action, outcome⟩
    cases action <;> simp [stdinBytes, ih, String.append_assoc]

theorem stdinBytes_Connect (P : Provider) (c : Client) : stdinBytes (Connect P c).2 = "" := by
  have h := Connect_events P c
  generalize (Connect P c).2 = evs at h
  induction evs with
  | nil => rfl
  | cons x xs ih =>
    obtain ⟨hop, hh⟩ := h x (List.mem_cons_self _ _)
    have ih2 := ih (fun ev hm => h ev (List.mem_cons_of_mem _ hm))
    rcases x with ⟨action, outcome⟩
    cases action <;> simp [Action.hop?] at hh <;> simpa [stdinBytes] using ih2

/-- C6, as the code has it: when `Connect` succeeds and every step on the
session succeeds, `SCPUpload` returns no error and the bytes it writes to the
standard input of the remote session are the control line `C0644`, the decimal
size and the base name of the remote path, ended by a newline, then the whole
content of the reader, whatever its length, then one NUL byte. -/
theorem SCPUpload_stdin (P : Provider) (c : Client) (reader : String) (size : Int)
    (remoteFilePath : String) (t : Transport) (hc : (Connect P c).1 = .ok t)
    (hio : SessionSucceeds P) :
    (SCPUpload P c reader size remoteFilePath).1 = none ∧
    stdinBytes (SCPUpload P c reader size remoteFilePath).2 =
      "C0644 " ++ toString size ++ " " ++ Base remoteFilePath ++ "\n" ++ reader ++
        String.mk [Char.ofNat 0] := by
  obtain ⟨h1, h2, h3, h4, h5, h6⟩ := hio
  obtain ⟨s, hs⟩ := h1 t
  have hb := stdinBytes_Connect P c
  unfold SCPUpload
  rcases hcs : Connect P c with ⟨r, evs⟩
  rw [hcs] at hc hb
  simp only at hc hb
  subst hc
  simp only [hs, h2, h3, h4, h5, h6, after, written]
  refine ⟨trivial, ?_⟩
  simp [stdinBytes_append, stdinBytes, hb, String.append_assoc]

/-- Witness for C6: two bytes uploaded with a declared size of five. -/
theorem SCPUpload_stdin_witness :
    stdinBytes (SCPUpload okProvider (aliceClient []) "ab" 5 "/tmp/dir/t.txt").2 =
      "C0644 " ++ toString (5 : Int) ++ " " ++ Base "/tmp/dir/t.txt" ++ "\n" ++ "ab" ++
        String.mk [Char.ofNat 0] :=
  (SCPUpload_stdin okProvider (aliceClient []) "ab" 5 "/tmp/dir/t.txt" ⟨0⟩ (by decide)
    ⟨fun _ => ⟨_, rfl⟩, fun _ => rfl, fun _ _ => rfl, fun _ _ => rfl, fun _ _ => rfl,
      fun _ => rfl⟩).2

/-- Counterexample for C6: a reader of two bytes uploaded with a declared size
of five.  Every step succeeds, and between the control line and the NUL byte
the code writes the two bytes of the reader, not five. -/
theorem SCPUpload_payload_not_size :
    (SCPUpload okProvider (aliceClient []) "ab" 5 "/tmp/dir/t.txt").1 = none ∧
    stdinBytes (SCPUpload okProvider (aliceClient []) "ab" 5 "/tmp/dir/t.txt").2 =
      "C0644 5 t.txt\n" ++ "ab" ++ String.mk [Char.ofNat 0] ∧
    (stdinBytes (SCPUpload okProvider (aliceClient []) "ab" 5 "/tmp/dir/t.txt").2).length ≠
      ("C0644 5 t.txt\n").length + 5 + 1 := by
  decide

/-! ## Port forwarding -/

/-- The accept loop from call `m` on, when the first failing `Accept` is call
`n`: with fuel for it the loop returns the wrapped error of that call and has
handled each connection accepted before it; with less fuel it is still
running. -/
theorem acceptLoop_first_failure (E : ProxyEnv) (t : Transport)
    (network address logText : String) (n : Nat) (err : GoError)
    (hacc : E.Accept n = .error err) :
    ∀ (fuel m : Nat), m ≤ n → (∀ i, m ≤ i → i < n → ∃ conn, E.Accept i = .ok conn) →
      (fuel ≤ n - m → (acceptLoop E t network address logText fuel m).1 = none) ∧
      (n - m < fuel →
        (acceptLoop E t network address logText fuel m).1 =
          some (Errorf "failed to accept local connection: " err) ∧
        (acceptLoop E t network address logText fuel m).2.length = n - m ∧
        ∀ i conn, m ≤ i → i < n → E.Accept i = .ok conn →
          (acceptLoop E t network address logText fuel m).2[i - m]? =
            some (handleConnection E t network address logText i conn)) := by
  intro fuel
  induction fuel with
  | zero =>
    intro m _ _
    exact ⟨fun _ => rfl, fun h => absurd h (Nat.not_lt_zero _)⟩
  | succ fuel ih =>
    intro m hm hbefore
    rcases Nat.eq_or_lt_of_le hm with hmn | hmn
    · subst hmn
      have e : acceptLoop E t network address logText (fuel + 1) m =
          (some (Errorf "failed to accept local connection: " err), []) := by
        rw [acceptLoop]
        simp only [hacc]
      rw [e]
      refine ⟨fun h => by omega, fun _ => ⟨rfl, by simp, ?_⟩⟩
      intro i conn h1 h2
      omega
    · obtain ⟨conn0, hconn0⟩ := hbefore m (le_refl m) hmn
      have e : acceptLoop E t network address logText (fuel + 1) m =
          ((acceptLoop E t network address logText fuel (m + 1)).1,
            handleConnection E t network address logText m conn0 ::
              (acceptLoop E t network address logText fuel (m + 1)).2) := by
        rw [acceptLoop]
        simp only [hconn0]
      rw [e]
      obtain ⟨ih1, ih2⟩ := ih (m + 1) hmn (fun i h1 h2 => hbefore i (by omega) h2)
      refine ⟨fun h => ih1 (by omega), fun h => ?_⟩
      obtain ⟨r1, r2, r3⟩ := ih2 (by omega)
      refine ⟨r1, by simp only [List.length_cons, r2]; omega, ?_⟩
      intro i conn h1 h2 hi
      rcases Nat.eq_or_lt_of_le h1 with him | him
      · subst him
        rw [hconn0] at hi
        simp only [Except.ok.injEq] at hi
        subst hi
        simp
      · have : i - m = (i - (m + 1)) + 1 := by omega
        rw [this, List.getElem?_cons_succ]
        exact r3 i conn him h2 hi

theorem proxy_first_failure (P : Provider) (E : ProxyEnv) (c : Client)
    (localPort network address logText : String) (t : Transport)
    (hc : (Connect P c).1 = .ok t) (hl : E.Listen "tcp" ("localhost:" ++ localPort) = .ok ())
    (n : Nat) (err : GoError) (hacc : E.Accept n = .error err)
    (hbefore : ∀ i < n, ∃ conn, E.Accept i = .ok conn) (fuel : Nat) :
    (fuel ≤ n → (proxy P E c localPort network address logText fuel).1 = none) ∧
    (n < fuel →
      (proxy P E c localPort network address logText fuel).1 =
        some (Errorf "failed to accept local connection: " err) ∧
      (proxy P E c localPort network address logText fuel).2.2.length = n ∧
      ∀ i conn, i < n → E.Accept i = .ok conn →
        (proxy P E c localPort network address logText fuel).2.2[i]? =
          some (handleConnection E t network address logText i conn)) := by
  obtain ⟨a1, a2⟩ := acceptLoop_first_failure E t network address logText n err hacc fuel 0
    (Nat.zero_le n) (fun i _ h => hbefore i h)
  unfold proxy
  rcases hcs : Connect P c with ⟨r, evs⟩
  rw [hcs] at hc
  simp only at hc
  subst hc
  simp only [hl]
  rcases hloop : acceptLoop E t network address logText fuel 0 with ⟨r, handled⟩
  rw [hloop] at a1 a2
  simp only [Nat.sub_zero] at a1 a2
  constructor
  · intro h
    have := a1 h
    subst this
    rfl
  · intro h
    obtain ⟨r1, r2, r3⟩ := a2 h
    subst r1
    exact ⟨rfl, r2, fun i conn hi hconn => r3 i conn (Nat.zero_le i) hi hconn⟩

/-- C9: once connected and listening, if call `n` of `Accept` is the first to
fail, then both proxy methods are still running after any number of iterations
up to `n`, and with more they return `failed to accept local connection: `
wrapping that failure.  They have then handled exactly the `n` connections
accepted before it, each one by its own goroutine whatever the outcome of the
remote dials: a failed remote dial leaves a record with its log line and is
neither returned nor stops the loop. -/
theorem proxy_stops_at_first_failed_accept (P : Provider) (E : ProxyEnv) (c : Client)
    (localPort remoteHost remotePort remoteSocketPath : String) (t : Transport)
    (hc : (Connect P c).1 = .ok t) (hl : E.Listen "tcp" ("localhost:" ++ localPort) = .ok ())
    (n : Nat) (err : GoError) (hacc : E.Accept n = .error err)
    (hbefore : ∀ i < n, ∃ conn, E.Accept i = .ok conn) (fuel : Nat) :
    ((fuel ≤ n →
        (ProxyRemotePortToLocal P E c localPort remoteHost remotePort fuel).1 = none) ∧
      (n < fuel →
        (ProxyRemotePortToLocal P E c localPort remoteHost remotePort fuel).1 =
          some (Errorf "failed to accept local connection: " err) ∧
        (ProxyRemotePortToLocal P E c localPort remoteHost remotePort fuel).2.2.length = n ∧
        ∀ i conn, i < n → E.Accept i = .ok conn →
          (ProxyRemotePortToLocal P E c localPort remoteHost remotePort fuel).2.2[i]? =
            some (handleConnection E t "tcp" (remoteHost ++ ":" ++ remotePort)
              "failed to connect to remote host: " i conn))) ∧
    ((fuel ≤ n →
        (ProxyRemoteUnixSocketToLocal P E c localPort remoteSocketPath fuel).1 = none) ∧
      (n < fuel →
        (ProxyRemoteUnixSocketToLocal P E c localPort remoteSocketPath fuel).1 =
          some (Errorf "failed to accept local connection: " err) ∧
        (ProxyRemoteUnixSocketToLocal P E c localPort remoteSocketPath fuel).2.2.length = n ∧
        ∀ i conn, i < n → E.Accept i = .ok conn →
          (ProxyRemoteUnixSocketToLocal P E c localPort remoteSocketPath fuel).2.2[i]? =
            some (handleConnection E t "unix" remoteSocketPath
              "failed to connect to remote Unix socket: " i conn))) :=
  ⟨proxy_first_failure P E c localPort "tcp" (remoteHost ++ ":" ++ remotePort)
      "failed to connect to remote host: " t hc hl n err hacc hbefore fuel,
   proxy_first_failure P E c localPort "unix" remoteSocketPath
      "failed to connect to remote Unix socket: " t hc hl n err hacc hbefore fuel⟩

/-- Witness for C9: two connections are accepted, the remote dial for the
first fails, and the third call of `Accept` fails. -/
theorem proxy_stops_at_first_failed_accept_witness :
    (ProxyRemotePortToLocal okProvider twoThenClosed (aliceClient []) "8080" "db" "5432" 3).1 =
        some (Errorf "failed to accept local connection: " (.leaf "listener closed")) ∧
    (ProxyRemotePortToLocal okProvider twoThenClosed (aliceClient []) "8080" "db" "5432"
        3).2.2.length = 2 :=
  have h := ((proxy_stops_at_first_failed_accept okProvider twoThenClosed (aliceClient [])
    "8080" "db" "5432" "/var/run/docker.sock" ⟨0⟩ (by decide) (by decide) 2
    (.leaf "listener closed") (by decide)
    (fun i hi => ⟨⟨i⟩, by
      show (if i < 2 then Except.ok (⟨i⟩ : Conn) else _) = _
      rw [if_pos hi]⟩) 3).1.2 (by decide))
  ⟨h.1, h.2.1⟩

/-! ## `handleStream` -/

/-- A list of bytes either holds no newline, or is a first line without
newline, a newline, and a rest. -/
theorem first_newline (rest : List Char) :
    (∀ x ∈ rest, x ≠ Char.ofNat 10) ∨
    ∃ line tail, rest = line ++ Char.ofNat 10 :: tail ∧ ∀ x ∈ line, x ≠ Char.ofNat 10 := by
  induction rest with
  | nil => exact Or.inl (by simp)
  | cons c r ih =>
    by_cases hc : c = Char.ofNat 10
    · exact Or.inr ⟨[], r, by simp [hc], by simp⟩
    · rcases ih with h | ⟨line, tail, h1, h2⟩
      · refine Or.inl ?_
        intro x hx
        rcases List.mem_cons.mp hx with hx | hx
        · rw [hx]; exact hc
        · exact h x hx
      · refine Or.inr ⟨c :: line, tail, by simp [h1], ?_⟩
        intro x hx
        rcases List.mem_cons.mp hx with hx | hx
        · rw [hx]; exact hc
        · exact h2 x hx

theorem scan_nil : scan [] = none := rfl

theorem scan_last_line (rest : List Char) (hne : rest ≠ [])
    (h : ∀ x ∈ rest, x ≠ Char.ofNat 10) (hlen : rest.length < MaxScanTokenSize) :
    scan rest = some (dropCR rest, []) := by
  have e : rest.takeWhile (fun c => c != Char.ofNat 10) = rest :=
    List.takeWhile_eq_self_iff.mpr (fun x hx => by simpa using h x hx)
  unfold scan
  simp only [e, hne, if_false, lt_irrefl, hlen, if_true]

theorem takeWhile_first_line (line tail : List Char) (h : ∀ x ∈ line, x ≠ Char.ofNat 10) :
    (line ++ Char.ofNat 10 :: tail).takeWhile (fun c => c != Char.ofNat 10) = line := by
  rw [List.takeWhile_append_of_pos (fun x hx => by simpa using h x hx),
    List.takeWhile_cons_of_neg (by simp), List.append_nil]

theorem scan_line (line tail : List Char) (h : ∀ x ∈ line, x ≠ Char.ofNat 10)
    (hlen : line.length < MaxScanTokenSize) :
    scan (line ++ Char.ofNat 10 :: tail) = some (dropCR line, tail) := by
  have hne : line ++ Char.ofNat 10 :: tail ≠ [] := by simp
  have hlt : line.length < (line ++ Char.ofNat 10 :: tail).length := by
    simp only [List.length_append, List.length_cons]; omega
  have hdrop : (line ++ Char.ofNat 10 :: tail).drop (line.length + 1) = tail := by
    rw [List.drop_append]; rfl
  unfold scan
  simp only [takeWhile_first_line line tail h, hne, if_false, hlt, hlen, if_true, hdrop]

/-- A line of `MaxScanTokenSize` bytes or more before its newline stops the
scanner. -/
theorem scan_line_too_long (line tail : List Char) (h : ∀ x ∈ line, x ≠ Char.ofNat 10)
    (hlen : MaxScanTokenSize ≤ line.length) :
    scan (line ++ Char.ofNat 10 :: tail) = none := by
  have hne : line ++ Char.ofNat 10 :: tail ≠ [] := by simp
  have hlt : line.length < (line ++ Char.ofNat 10 :: tail).length := by
    simp only [List.length_append, List.length_cons]; omega
  unfold scan
  simp only [takeWhile_first_line line tail h, hne, if_false, hlt, if_true,
    Nat.not_lt.mpr hlen]

theorem splitOn_no_newline (rest : List Char) (h : ∀ x ∈ rest, x ≠ Char.ofNat 10) :
    rest.splitOn (Char.ofNat 10) = [rest] :=
  List.splitOnP_eq_single _ rest (fun x hx => by simpa using h x hx)

theorem splitOn_first_line (line tail : List Char) (h : ∀ x ∈ line, x ≠ Char.ofNat 10) :
    (line ++ Char.ofNat 10 :: tail).splitOn (Char.ofNat 10) =
      line :: tail.splitOn (Char.ofNat 10) :=
  List.splitOnP_first _ line (fun x hx => by simpa using h x hx) _ (by simp) tail

theorem scanLines_nil : scanLines [] = [] := by
  simp [scanLines, List.splitOn, List.splitOnP_nil]

theorem scanLines_last_line (rest : List Char) (hne : rest ≠ [])
    (h : ∀ x ∈ rest, x ≠ Char.ofNat 10) : scanLines rest = [dropCR rest] := by
  unfold scanLines
  simp only [splitOn_no_newline rest h, List.getLast?_singleton, Option.some.injEq, hne,
    if_false, List.map_cons, List.map_nil]

theorem scanLines_first_line (line tail : List Char) (h : ∀ x ∈ line, x ≠ Char.ofNat 10) :
    scanLines (line ++ Char.ofNat 10 :: tail) = dropCR line :: scanLines tail := by
  unfold scanLines
  simp only [splitOn_first_line line tail h]
  have hne : tail.splitOn (Char.ofNat 10) ≠ [] := List.splitOnP_ne_nil _ _
  obtain ⟨p, ps, hp⟩ := List.exists_cons_of_ne_nil hne
  rw [hp, List.getLast?_cons_cons]
  split
  · rw [List.dropLast_cons₂]; rfl
  · rfl

theorem handleStreamLoop_nil {σ : Type} (handler : String → σ → σ) (fuel : Nat) (s : σ) :
    handleStreamLoop handler fuel [] s = s := by
  cases fuel <;> rfl

/-- The loop of `handleStream` with enough fuel, on content whose lines all fit
the buffer: the handler is called on each line of `scanLines`, in order. -/
theorem handleStreamLoop_lines {σ : Type} (handler : String → σ → σ) :
    ∀ (fuel : Nat) (rest : List Char) (s : σ), rest.length < fuel →
      (∀ piece ∈ rest.splitOn (Char.ofNat 10), piece.length < MaxScanTokenSize) →
      handleStreamLoop handler fuel rest s =
        (scanLines rest).foldl (fun acc line => handler (String.mk line) acc) s := by
  intro fuel
  induction fuel with
  | zero => intro rest s h; exact absurd h (Nat.not_lt_zero _)
  | succ fuel ih =>
    intro rest s hfuel hshort
    by_cases hne : rest = []
    · subst hne
      rw [handleStreamLoop_nil, scanLines_nil]
      rfl
    · rcases first_newline rest with h | ⟨line, tail, h1, h2⟩
      · have hlen : rest.length < MaxScanTokenSize :=
          hshort rest (by rw [splitOn_no_newline rest h]; exact List.mem_singleton_self _)
        rw [handleStreamLoop, scan_last_line rest hne h hlen, scanLines_last_line rest hne h]
        simp only [handleStreamLoop_nil, List.foldl_cons, List.foldl_nil]
      · subst h1
        rw [splitOn_first_line line tail h2] at hshort
        have hlen : line.length < MaxScanTokenSize := hshort line (List.mem_cons_self _ _)
        rw [handleStreamLoop, scan_line line tail h2 hlen, scanLines_first_line line tail h2]
        simp only [List.foldl_cons]
        apply ih
        · simp only [List.length_append, List.length_cons] at hfuel
          omega
        · exact fun piece hp => hshort piece (List.mem_cons_of_mem _ hp)

theorem foldl_recordLine (lines : List (List Char)) :
    ∀ calls : List String,
      lines.foldl (fun acc line => recordLine (String.mk line) acc) calls =
        calls ++ lines.map String.mk := by
  induction lines with
  | nil => intro calls; simp
  | cons l ls ih =>
    intro calls
    rw [List.foldl_cons, ih]
    simp [recordLine]

/-- C10, as the code has it: on content in which every line is shorter than
the 64 KiB buffer of the scanner, `handleStream` calls the handler exactly once
for each line, in order, where the lines are those of `scanLines`: the content
split on the newline byte, without a last empty piece, each line less one
trailing carriage return.  With the recording handler, the list of handler
arguments is that list of lines. -/
theorem handleStream_lines {σ : Type} (reader : String) (handler : String → σ → σ) (s : σ)
    (hshort : ∀ piece ∈ reader.data.splitOn (Char.ofNat 10),
      piece.length < MaxScanTokenSize) :
    handleStream reader handler s =
      (scanLines reader.data).foldl (fun acc line => handler (String.mk line) acc) s ∧
    handleStream reader recordLine [] = (scanLines reader.data).map String.mk := by
  have hfuel : reader.data.length < reader.length + 1 := Nat.lt_succ_self _
  constructor
  · exact handleStreamLoop_lines handler _ _ s hfuel hshort
  · unfold handleStream
    rw [handleStreamLoop_lines recordLine _ _ [] hfuel hshort, foldl_recordLine]
    rfl

/-- Witness for C10: four lines, one ended by a carriage return and one empty. -/
theorem handleStream_lines_witness :
    handleStream "a\r\nb\n\nc\n" recordLine [] = ["a", "b", "", "c"] :=
  (handleStream_lines "a\r\nb\n\nc\n" recordLine [] (by decide)).2.trans (by decide)

/-- A first line of `MaxScanTokenSize` bytes or more: the handler is never
called. -/
theorem handleStream_long_line {σ : Type} (handler : String → σ → σ) (s : σ) (n : Nat)
    (hn : MaxScanTokenSize ≤ n) (tail : List Char) :
    handleStream (String.mk (List.replicate n (Char.ofNat 97) ++ Char.ofNat 10 :: tail))
      handler s = s := by
  have h : ∀ x ∈ List.replicate n (Char.ofNat 97), x ≠ Char.ofNat 10 := by
    intro x hx
    rw [List.eq_of_mem_replicate hx]
    decide
  unfold handleStream
  rw [handleStreamLoop, scan_line_too_long _ tail h (by rw [List.length_replicate]; exact hn)]

/-- Counterexample for C10, on two inputs.  The content `a\r\nb\n` splits on
the newline into `a\r`, `b` and an empty piece, and the handler is called with
`a` and `b`.  A line of 65536 bytes `a` followed by a newline and the line `b`
splits into two lines, and the handler is called for neither. -/
theorem handleStream_differs_from_split :
    ("a\r\nb\n".data.splitOn (Char.ofNat 10) = ["a\r".data, "b".data, []] ∧
      handleStream "a\r\nb\n" recordLine [] = ["a", "b"]) ∧
    ((List.replicate 65536 (Char.ofNat 97) ++ [Char.ofNat 10, Char.ofNat 98]).splitOn
        (Char.ofNat 10) =
      [List.replicate 65536 (Char.ofNat 97), [Char.ofNat 98]] ∧
    handleStream
      (String.mk (List.replicate 65536 (Char.ofNat 97) ++ [Char.ofNat 10, Char.ofNat 98]))
      recordLine [] = []) := by
  have h : ∀ x ∈ List.replicate 65536 (Char.ofNat 97), x ≠ Char.ofNat 10 := by
    intro x hx
    rw [List.eq_of_mem_replicate hx]
    decide
  refine ⟨by decide, ?_, ?_⟩
  · rw [splitOn_first_line _ _ h, splitOn_no_newline [Char.ofNat 98] (by decide)]
  · exact handleStream_long_line recordLine [] 65536 (by decide) [Char.ofNat 98]

end Gossh
